import Mathlib

/-!
Verification development for the openpile axial-capacity and spring-assembly
engines (src/openpile/calculate.py and src/openpile/construct.py).

Numbers are modelled by the rationals `ℚ`: the source computes with IEEE
doubles, but every claim under study is structural or algebraic (branch
selection, linearity, validation outcomes), not about rounding.  The float
constant `math.pi` is passed around explicitly as a parameter `piq : ℚ`
(theorems quantify over it); where a closed statement needs the concrete
value we use `piFloat`, the exact rational value of the IEEE-754 double
`math.pi`.

The mesh/property mapper `openpile.core._model_build.get_all_properties` and
the constitutive-model classes of `openpile.soilmodels` are code of this
repository that is not under src/.  Modelled from the spec (sections 4.1, 3):
the mapper's output is an opaque list of per-element rows carrying the
columns the engines read, aligned by a shared 0-based element index; a
constitutive model is a capability record of pure numeric functions.
Python exceptions are modelled with `Except String`.
-/

/-- Modelled from the spec: exact rational value of the IEEE-754 double
`math.pi` used by the source (`import math as m`; `m.pi`). -/
def piFloat : ℚ := 884279719003555 / 281474976710656

/-- Modelled from the spec: one row of the aligned per-element tables
returned by `get_all_properties` (openpile.core._model_build, not under
src/).  It joins the columns of `soil_properties` and `element_properties`
that calculate.py and construct.py read: the element span
(`x_top [m]`, `x_bottom [m]`), pile geometry (`Diameter [m]`,
`Wall thickness [m]`, `Area [m2]`), depth below ground (`xg_top [m]`,
`xg_bottom [m]`) and vertical effective stresses (`sigma_v top [kPa]`,
`sigma_v bottom [kPa]`). -/
structure Row where
  x_top : ℚ
  x_bottom : ℚ
  diameter : ℚ
  wall_thickness : ℚ
  area : ℚ
  xg_top : ℚ
  xg_bottom : ℚ
  sigv_top : ℚ
  sigv_bottom : ℚ
deriving DecidableEq

/-- Default row used only to make positional access total; indices fed to
`rowAt` always come from `List.range mesh.length` in the definitions below,
mirroring the pandas RangeIndex of the source tables. -/
def defaultRow : Row :=
  { x_top := 0, x_bottom := 0, diameter := 0, wall_thickness := 0, area := 0,
    xg_top := 0, xg_bottom := 0, sigv_top := 0, sigv_bottom := 0 }

/-- Positional row access, `table.iloc[i]` in the source. -/
def rowAt (mesh : List Row) (i : ℕ) : Row := mesh.getD i defaultRow

/-- Modelled from the spec: an axial constitutive model
(openpile.soilmodels, not under src/) as used by calculate.py — a
capability record of pure numeric functions plus the two calibration
multipliers.  `unit_shaft_friction` and `unit_tip_resistance` take
(sig, depth_from_top_of_layer, layer_height); the shaft signature takes the
outer and inner element surfaces and yields the outer/inner split factors
(the source's `unit_shaft_signature(So, Si)["out"]` and `["in"]`). -/
structure AxialModel where
  unit_shaft_friction : ℚ → ℚ → ℚ → ℚ
  unit_shaft_signature_out : ℚ → ℚ → ℚ
  unit_shaft_signature_in : ℚ → ℚ → ℚ
  unit_tip_resistance : ℚ → ℚ → ℚ → ℚ
  Q_multiplier : ℚ
  t_multiplier : ℚ

/-- Argument record of the lateral spring-generation functions
(`py_spring_fct`, `mt_spring_fct`, `Hb_spring_fct`, `Mb_spring_fct`),
matching the keyword arguments passed by `Model.model_post_init` in
construct.py. -/
structure SpringIn where
  sig : ℚ
  X : ℚ
  layer_height : ℚ
  depth_from_top_of_layer : ℚ
  D : ℚ
  L : ℚ
  below_water_table : Bool
  output_length : ℕ

/-- Modelled from the spec: a lateral constitutive model
(openpile.soilmodels, not under src/).  `spring_signature` is indexed in
the source as [0] = p-y, [1] = Hb, [2] = m-t, [3] = Mb; each generator
returns the pair (value array, abscissa array) that the source unpacks as
`(arr[..., 1], arr[..., 0]) = fct(...)`. -/
structure LateralModel where
  sig_py : Bool
  sig_Hb : Bool
  sig_mt : Bool
  sig_Mb : Bool
  py_spring_fct : SpringIn → List ℚ × List ℚ
  mt_spring_fct : SpringIn → List ℚ × List ℚ
  Hb_spring_fct : SpringIn → List ℚ × List ℚ
  Mb_spring_fct : SpringIn → List ℚ × List ℚ

/-- `openpile.construct.Layer` (construct.py): elevations, total unit
weight and the two optional constitutive models.  The `name` and `color`
fields play no role in any computation under study and are omitted. -/
structure Layer where
  top : ℚ
  bottom : ℚ
  weight : ℚ
  lateral_model : Option LateralModel := none
  axial_model : Option AxialModel := none

/-- `openpile.construct.SoilProfile` (construct.py): ground elevation,
water line and the layer list.  `cpt_data` is unused by the engines. -/
structure SoilProfile where
  top_elevation : ℚ
  water_line : ℚ
  layers : List Layer

/-- `SoilProfile.bottom_elevation` (construct.py):
`top_elevation - sum(abs(x.top - x.bottom) for x in layers)`. -/
def SoilProfile.bottom_elevation (s : SoilProfile) : ℚ :=
  s.top_elevation - (s.layers.map (fun l => |l.top - l.bottom|)).sum

/-- Scalar view of `openpile.construct.Pile` as consumed by calculate.py:
the derived properties `tip_footprint`, `tip_area`, `bottom_elevation` and
`material.unitweight`.  (The sectional geometry itself is modelled
separately for the construction-time validator, see
`CircularPileSection`.) -/
structure Pile where
  tip_footprint : ℚ
  tip_area : ℚ
  bottom_elevation : ℚ
  material_unitweight : ℚ

/-! ## calculate.py -/

/-- Per-element outer surface, from `_pile_element_surface` (calculate.py):
`Diameter * pi * (x_top - x_bottom)`. -/
def surfOutAt (piq : ℚ) (mesh : List Row) (i : ℕ) : ℚ :=
  (rowAt mesh i).diameter * piq * ((rowAt mesh i).x_top - (rowAt mesh i).x_bottom)

/-- Per-element inner surface, from `_pile_element_surface` (calculate.py):
`(Diameter - 2 * wall_thickness) * pi * (x_top - x_bottom)`. -/
def surfInAt (piq : ℚ) (mesh : List Row) (i : ℕ) : ℚ :=
  ((rowAt mesh i).diameter - 2 * (rowAt mesh i).wall_thickness) * piq *
    ((rowAt mesh i).x_top - (rowAt mesh i).x_bottom)

/-- Per-element inside volume, from `_pile_inside_volume` (calculate.py):
`(Diameter - 2 * wall_thickness)^2 * pi / 4 * (x_top - x_bottom)`. -/
def insideVolAt (piq : ℚ) (mesh : List Row) (i : ℕ) : ℚ :=
  ((rowAt mesh i).diameter - 2 * (rowAt mesh i).wall_thickness) ^ 2 * piq / 4 *
    ((rowAt mesh i).x_top - (rowAt mesh i).x_bottom)

/-- `effective_pile_weight` (calculate.py): per element, volume times
unit weight, reduced by 10 when `x_bottom < soil.water_line`; raises when
no soil profile is linked. -/
def effective_pile_weight (pile : Pile) (soil : Option SoilProfile)
    (mesh : List Row) : Except String ℚ :=
  match soil with
  | some s =>
      .ok ((mesh.map (fun r =>
        let V := (r.x_top - r.x_bottom) * r.area
        if r.x_bottom < s.water_line then V * (pile.material_unitweight - 10)
        else V * pile.material_unitweight)).sum)
  | none =>
      .error "Model must be linked to a soil profile, use openpile.construct.Pile.weight instead."

/-- Element indices whose span lies inside a layer, the source's
`soil_properties.loc[(x_top <= layer.top) & (x_bottom >= layer.bottom)].index`
(shared by `entrapped_soil_weight`, `shaft_resistance` and
`create_springs`). -/
def coveredIdx (mesh : List Row) (layer : Layer) : List ℕ :=
  (List.range mesh.length).filter (fun i =>
    decide ((rowAt mesh i).x_top ≤ layer.top) &&
    decide ((rowAt mesh i).x_bottom ≥ layer.bottom))

/-- Writes `val i` at each index of `idxs` into the list, in order — the
source's `for i in elements_for_layer: arr[i] = ...` loop. -/
def writeAll (idxs : List ℕ) (val : ℕ → ℚ) (st : List ℚ) : List ℚ :=
  idxs.foldl (fun acc i => acc.set i (val i)) st

/-- Element midpoint elevation `0.5 * (x_top + x_bottom)` used by
`entrapped_soil_weight` (calculate.py). -/
def midElevation (mesh : List Row) (i : ℕ) : ℚ :=
  ((rowAt mesh i).x_top + (rowAt mesh i).x_bottom) / 2

/-- Per-element entrapped-soil term from `entrapped_soil_weight`
(calculate.py): `layer.weight * Vi[i] if elevation[i] <= soil.water_line
else (layer.weight - uw_water) * Vi[i]` with `uw_water = 10`. -/
def entrappedTerm (piq water_line : ℚ) (mesh : List Row) (layer : Layer) (i : ℕ) : ℚ :=
  if midElevation mesh i ≤ water_line then layer.weight * insideVolAt piq mesh i
  else (layer.weight - 10) * insideVolAt piq mesh i

/-- `entrapped_soil_weight` (calculate.py): loops the layers, overwriting
`element_sw[i]` for every element covered by the layer, then sums. -/
def entrapped_soil_weight (piq : ℚ) (pile : Pile) (soil : SoilProfile)
    (mesh : List Row) : ℚ :=
  (soil.layers.foldl
    (fun sw layer =>
      writeAll (coveredIdx mesh layer) (entrappedTerm piq soil.water_line mesh layer) sw)
    (List.replicate mesh.length 0)).sum

/-- Mean vertical effective stress of an element,
`0.5 * (sigma_v top + sigma_v bottom)` (calculate.py). -/
def sigveffAt (mesh : List Row) (i : ℕ) : ℚ :=
  ((rowAt mesh i).sigv_top + (rowAt mesh i).sigv_bottom) / 2

/-- Mean absolute depth below ground of an element, the source's
`soil_properties[["xg_top [m]", "xg_bottom [m]"]].iloc[i].abs().mean()`. -/
def depthFromGroundAt (mesh : List Row) (i : ℕ) : ℚ :=
  (|(rowAt mesh i).xg_top| + |(rowAt mesh i).xg_bottom|) / 2

/-- Outer shaft-resistance term of one element (calculate.py,
`shaft_resistance`): unit shaft friction at mean stress and mean depth,
times the outer signature split, times the outer surface, times the layer
calibration multiplier. -/
def shaftTermOut (piq : ℚ) (mesh : List Row) (layer : Layer) (am : AxialModel)
    (i : ℕ) : ℚ :=
  am.unit_shaft_friction (sigveffAt mesh i) (depthFromGroundAt mesh i)
      (layer.top - layer.bottom) *
    am.unit_shaft_signature_out (surfOutAt piq mesh i) (surfInAt piq mesh i) *
    surfOutAt piq mesh i * am.t_multiplier

/-- Inner shaft-resistance term of one element (calculate.py,
`shaft_resistance`). -/
def shaftTermIn (piq : ℚ) (mesh : List Row) (layer : Layer) (am : AxialModel)
    (i : ℕ) : ℚ :=
  am.unit_shaft_friction (sigveffAt mesh i) (depthFromGroundAt mesh i)
      (layer.top - layer.bottom) *
    am.unit_shaft_signature_in (surfOutAt piq mesh i) (surfInAt piq mesh i) *
    surfInAt piq mesh i * am.t_multiplier

/-- One layer pass of `shaft_resistance` (calculate.py): layers without an
axial model are skipped; otherwise the outer and inner rows of
`element_fs` are overwritten at every covered element. -/
def shaftUpdate (piq : ℚ) (mesh : List Row) (fs : List ℚ × List ℚ)
    (layer : Layer) : List ℚ × List ℚ :=
  match layer.axial_model with
  | none => fs
  | some am =>
      (writeAll (coveredIdx mesh layer) (shaftTermOut piq mesh layer am) fs.1,
       writeAll (coveredIdx mesh layer) (shaftTermIn piq mesh layer am) fs.2)

/-- `shaft_resistance` (calculate.py): accumulates the two rows of
`element_fs`, zeroes the row of a disabled side, and sums everything. -/
def shaft_resistance (piq : ℚ) (pile : Pile) (soil : SoilProfile)
    (mesh : List Row) (outer_shaft inner_shaft : Bool) : ℚ :=
  let fs := soil.layers.foldl (shaftUpdate piq mesh)
    (List.replicate mesh.length 0, List.replicate mesh.length 0)
  (if outer_shaft = false then List.replicate mesh.length (0 : ℚ) else fs.1).sum +
  (if inner_shaft = false then List.replicate mesh.length (0 : ℚ) else fs.2).sum

/-- Bottommost `sigma_v bottom [kPa]` value,
`soil_properties["sigma_v bottom [kPa]"].iloc[-1]` in the source.  The
mapper contract guarantees a nonempty table for any valid pile, so the
default is never read in the uses below. -/
def lastSigvBottom (mesh : List Row) : ℚ :=
  ((mesh.getLastD defaultRow)).sigv_bottom

/-- `unit_end_bearing` (calculate.py) before the Python-level unboundness
check: the loop over all layers assigns `q = 0.0` for every layer without
an axial model, and reassigns `q` to the tip value for every layer with a
model that contains the pile tip; `none` models the case where `q` was
never assigned.  The source wraps the stress in a 1-tuple
(`sig_v_tip = (...,)`); the constitutive capability record consumes the
numeric value.  Note the second argument: the source passes the full
profile height `soil.top_elevation - soil.bottom_elevation` as
`depth_from_top_of_layer`. -/
def unit_end_bearing_loop (pile : Pile) (soil : SoilProfile)
    (mesh : List Row) : Option ℚ :=
  soil.layers.foldl
    (fun q layer =>
      match layer.axial_model with
      | none => some 0
      | some am =>
          if layer.top ≥ pile.bottom_elevation ∧ layer.bottom ≤ pile.bottom_elevation then
            some (am.unit_tip_resistance (lastSigvBottom mesh)
                (soil.top_elevation - soil.bottom_elevation)
                (layer.top - layer.bottom) * am.Q_multiplier)
          else q)
    none

/-- `unit_end_bearing` (calculate.py): returns the last value assigned to
`q`; if no layer ever assigned `q`, Python raises UnboundLocalError. -/
def unit_end_bearing (pile : Pile) (soil : SoilProfile)
    (mesh : List Row) : Except String ℚ :=
  match unit_end_bearing_loop pile soil mesh with
  | some q => .ok q
  | none => .error "UnboundLocalError: local variable q referenced before assignment"

/-- `isplugged` (calculate.py).  For "ICP-05" the source compares
`math.sqrt(4 * tip_footprint / pi) < 1.4`; over nonnegative arguments this
is `4 * tip_footprint / pi < 1.96 = 49/25` (squaring both sides), and a
negative argument raises `math domain error` as `math.sqrt` does. -/
def isplugged (piq : ℚ) (pile : Pile) (soil : SoilProfile) (mesh : List Row)
    (method kind : String) : Except String Bool :=
  if method = "API-87" then
    if kind = "compression" then
      match unit_end_bearing pile soil mesh with
      | .error e => .error e
      | .ok q =>
          .ok (decide (q * (pile.tip_footprint - pile.tip_area) <
            shaft_resistance piq pile soil mesh false true -
              entrapped_soil_weight piq pile soil mesh))
    else if kind = "tension" then
      .ok (decide (entrapped_soil_weight piq pile soil mesh <
        shaft_resistance piq pile soil mesh false true))
    else .error "UnboundLocalError: local variable answer referenced before assignment"
  else if method = "ICP-05" then
    if 4 * pile.tip_footprint / piq < 0 then .error "ValueError: math domain error"
    else .ok (decide (4 * pile.tip_footprint / piq < 49 / 25))
  else .error "Method not implemented"

/-- `compressioncapacity` (calculate.py, lines 166-175).  The body first
evaluates `isplugged(pile, soil, kind="compression")`, omitting the
required positional argument `method`, so Python raises TypeError at the
call and nothing else runs.  (The lines that would add the end-bearing and
entrapped-weight terms are additionally standalone expression statements —
a dangling `+ ...` continuation — evaluated and discarded, so even with
the call repaired `Q` would equal the shaft term alone.) -/
def compressioncapacity (piq : ℚ) (pile : Pile) (soil : SoilProfile)
    (mesh : List Row) : Except String ℚ :=
  .error "TypeError: isplugged() missing 1 required positional argument: method"

/-- `tensilecapacity` (calculate.py, lines 177-184): same missing
`method` argument in its `isplugged` call, so every invocation raises
TypeError before computing anything. -/
def tensilecapacity (piq : ℚ) (pile : Pile) (soil : SoilProfile)
    (mesh : List Row) : Except String ℚ :=
  .error "TypeError: isplugged() missing 1 required positional argument: method"

/-! ## construct.py: pile sections and their construction-time validator -/

/-- `CircularPileSection` (construct.py) after field validation:
`bottom_elevation < top_elevation`, `diameter > 0`, and a thickness
defaulted to `diameter / 2` when absent (those field validators are not at
issue in the claims; the structure stores the validated values). -/
structure CircularPileSection where
  top_elevation : ℚ
  bottom_elevation : ℚ
  diameter : ℚ
  thickness : ℚ
deriving DecidableEq

/-- The sort performed by `Pile.pile_sections_must_not_overlap`
(construct.py): `sorted(self.pile_sections, key=lambda x: -x.get_top_elevation())`,
i.e. descending top elevation.  (Python's sort is stable; insertion sort
realizes the same order, and no claim depends on the order of sections with
equal top elevations.) -/
def sortSectionsDescTop (ss : List CircularPileSection) : List CircularPileSection :=
  List.insertionSort (fun a b => b.top_elevation ≤ a.top_elevation) ss

/-- The index loop of `pile_sections_must_not_overlap` (construct.py) from
section number `i`: each section's top must equal the previous section's
bottom exactly (`!=` on the elevations, no tolerance). -/
def checkSectionsConnected (i : ℕ) (prev : CircularPileSection) :
    List CircularPileSection → Except String Unit
  | [] => .ok ()
  | s :: rest =>
      if s.top_elevation = prev.bottom_elevation then
        checkSectionsConnected (i + 1) s rest
      else
        .error ("Pile sections are not consistent. Pile section No. " ++
          toString i ++ " and No. " ++ toString (i - 1) ++ " do not connect.")

/-- `Pile.pile_sections_must_not_overlap` (construct.py): sorts the
sections by descending top elevation, raises on the first consecutive pair
whose elevations do not match exactly, and stores the sorted list back. -/
def pile_sections_must_not_overlap (ss : List CircularPileSection) :
    Except String (List CircularPileSection) :=
  let sorted := sortSectionsDescTop ss
  match sorted with
  | [] => .ok sorted
  | s0 :: rest =>
      match checkSectionsConnected 1 s0 rest with
      | .ok _ => .ok sorted
      | .error e => .error e

/-! ## construct.py: soil profile validator -/

/-- Python's `math.isclose(a, b, abs_tol=0.001)` with the default
`rel_tol = 1e-9`:  `|a - b| <= max(rel_tol * max(|a|, |b|), abs_tol)`. -/
def isclose (a b : ℚ) : Bool :=
  decide (|a - b| ≤ max ((1 / 1000000000) * max |a| |b|) (1 / 1000))

/-- The sort performed by `SoilProfile.check_layers_elevations`
(construct.py): `argsort` of the top elevations, reversed — descending top
elevation, the bottoms carried along with their layer. -/
def sortLayersDescTop (ls : List Layer) : List Layer :=
  List.insertionSort (fun a b => b.top ≤ a.top) ls

/-- The pair loop of `check_layers_elevations` (construct.py):
`m.isclose(top_sorted[i + 1], bottom_sorted[i], abs_tol=0.001)` for every
consecutive pair of the descending-sorted layers. -/
def checkLayersClose (prev : Layer) : List Layer → Except String Unit
  | [] => .ok ()
  | l :: rest =>
      if isclose l.top prev.bottom then checkLayersClose l rest
      else .error "Layers elevations overlap."

/-- `SoilProfile.check_layers_elevations` (construct.py): after sorting by
descending top elevation, the uppermost top must equal the profile's
`top_elevation` exactly (`!=`, no tolerance), and every consecutive pair
must satisfy `math.isclose(..., abs_tol=0.001)`.  An empty layer list
makes `top_sorted[0]` raise IndexError. -/
def check_layers_elevations (top_elevation : ℚ) (layers : List Layer) :
    Except String Unit :=
  match sortLayersDescTop layers with
  | [] => .error "IndexError: index 0 is out of bounds"
  | l0 :: rest =>
      if l0.top = top_elevation then checkLayersClose l0 rest
      else .error "top_elevation not matching uppermost layer elevations."

/-! ## construct.py: spring assembly (`Model.model_post_init.create_springs`) -/

/-- Number of points per discretized curve, `spring_dim = 15` in
`create_springs` (construct.py). -/
def spring_dim : ℕ := 15

/-- One (value, abscissa) axis pair of a spring slot: component 1 is the
array index `[..., 0]` (abscissa), component 2 is `[..., 1]` (value). -/
abbrev Arr2 := List ℚ × List ℚ

/-- A p-y spring slot of one element: the `j = 0` (top) and `j = 1`
(bottom) pairs. -/
abbrev PySlot := Arr2 × Arr2

/-- One 15 x 15 block of the `mt` array (the source allocates
`mt` with shape `(elem, 2, 2, spring_dim, spring_dim)`). -/
abbrev MtMat := List (List ℚ)

/-- An m-t spring slot of one element: `j = 0` and `j = 1`, each holding
the `[..., 0]` and `[..., 1]` matrices. -/
abbrev MtSlot := (MtMat × MtMat) × (MtMat × MtMat)

/-- All-zero axis pair of the configured length (`np.zeros(..., spring_dim)`). -/
def zeroArr2 : Arr2 := (List.replicate spring_dim 0, List.replicate spring_dim 0)

/-- All-zero p-y slot. -/
def zeroPySlot : PySlot := (zeroArr2, zeroArr2)

/-- All-zero 15 x 15 block. -/
def zeroMtMat : MtMat := List.replicate spring_dim (List.replicate spring_dim 0)

/-- All-zero m-t slot. -/
def zeroMtSlot : MtSlot := ((zeroMtMat, zeroMtMat), (zeroMtMat, zeroMtMat))

/-- The spring arrays of `create_springs` (construct.py): `py`, `mt`, `Hb`,
`Mb` and the allocated-but-never-written `tz`. -/
structure Springs where
  py : List PySlot
  mt : List MtSlot
  Hb : Arr2
  Mb : Arr2
  tz : List PySlot
deriving DecidableEq

/-- The zero-filled allocation at the top of `create_springs`. -/
def initSprings (n : ℕ) : Springs :=
  { py := List.replicate n zeroPySlot, mt := List.replicate n zeroMtSlot,
    Hb := zeroArr2, Mb := zeroArr2, tz := List.replicate n zeroPySlot }

/-- Inputs of `create_springs` (construct.py): the model's pile bottom
elevation, soil profile, aligned property table (see `Row`), and the four
spring-family toggles.  The source requires a soil profile to run
`create_springs` at all (it iterates `self.soil.layers`). -/
structure ModelIn where
  pile_bottom_elevation : ℚ
  soil : SoilProfile
  mesh : List Row
  distributed_lateral : Bool
  distributed_moment : Bool
  base_shear : Bool
  base_moment : Bool

/-- The source's tuple unpacking `(arr[..., 1], arr[..., 0]) = fct(...)`:
the generator's first component lands at index 1 (value), the second at
index 0 (abscissa); our `Arr2` stores (index 0, index 1). -/
def swapPair (r : List ℚ × List ℚ) : Arr2 := (r.2, r.1)

/-- Same unpacking into one `j`-half of the 5-D `mt` array: numpy
broadcasts the returned 15-vector across the 15 rows of the
`(spring_dim, spring_dim)` slot. -/
def broadcastSwap (r : List ℚ × List ℚ) : MtMat × MtMat :=
  (List.replicate spring_dim r.2, List.replicate spring_dim r.1)

/-- The keyword arguments passed to `py_spring_fct` / `mt_spring_fct` for
element `i`, end `j` (construct.py, `create_springs`): stress and
elevations are read per end, `X` is the absolute depth below ground,
`below_water_table` compares the end elevation with the water line. -/
def elemSpringArgs (M : ModelIn) (layer : Layer) (i j : ℕ) : SpringIn :=
  let r := rowAt M.mesh i
  let sig := if j = 0 then r.sigv_top else r.sigv_bottom
  let elev := if j = 0 then r.x_top else r.x_bottom
  let depth := if j = 0 then |r.xg_top| else |r.xg_bottom|
  { sig := sig, X := depth, layer_height := layer.top - layer.bottom,
    depth_from_top_of_layer := layer.top - elev, D := r.diameter,
    L := M.soil.top_elevation - M.pile_bottom_elevation,
    below_water_table := decide (elev ≤ M.soil.water_line),
    output_length := spring_dim }

/-- The keyword arguments passed to `Hb_spring_fct` / `Mb_spring_fct`
(construct.py, `create_springs`): `X` is the full profile height, `D` is
the Python variable `pile_width` leaked from the last element-loop
iteration. -/
def tipSpringArgs (M : ModelIn) (layer : Layer) (sig_v_tip pw : ℚ) : SpringIn :=
  { sig := sig_v_tip, X := M.soil.top_elevation - M.soil.bottom_elevation,
    layer_height := layer.top - layer.bottom,
    depth_from_top_of_layer := layer.top - M.pile_bottom_elevation,
    D := pw, L := M.soil.top_elevation - M.pile_bottom_elevation,
    below_water_table := decide (M.pile_bottom_elevation ≤ M.soil.water_line),
    output_length := spring_dim }

/-- The body of the per-element loop of `create_springs` (construct.py)
for one covered element `i`: assigns `pile_width`, then fills the p-y slot
when the model declares p-y support AND `distributed_lateral` is on, and
the m-t slot when the model declares m-t support AND `distributed_moment`
is on.  The second state component tracks the Python local `pile_width`
(None while still unassigned). -/
def elemUpdate (M : ModelIn) (layer : Layer) (lm : LateralModel)
    (st : Springs × Option ℚ) (i : ℕ) : Springs × Option ℚ :=
  let pile_width := (rowAt M.mesh i).diameter
  let pySlotNew : PySlot :=
    (swapPair (lm.py_spring_fct (elemSpringArgs M layer i 0)),
     swapPair (lm.py_spring_fct (elemSpringArgs M layer i 1)))
  let mtSlotNew : MtSlot :=
    (broadcastSwap (lm.mt_spring_fct (elemSpringArgs M layer i 0)),
     broadcastSwap (lm.mt_spring_fct (elemSpringArgs M layer i 1)))
  let s1 :=
    if lm.sig_py && M.distributed_lateral then
      { st.1 with py := st.1.py.set i pySlotNew }
    else st.1
  let s2 :=
    if lm.sig_mt && M.distributed_moment then
      { s1 with mt := s1.mt.set i mtSlotNew }
    else s1
  (s2, some pile_width)

/-- The Hb write of the pile-tip block of `create_springs` (construct.py):
gated by declared Hb support AND the `base_shear` toggle; `D` is the Python
local `pile_width` leaked from the element loop, whose read raises
UnboundLocalError when no element loop iteration ever ran. -/
def tipHbStep (M : ModelIn) (layer : Layer) (lm : LateralModel) (sig_v_tip : ℚ)
    (s : Springs × Option ℚ) : Except String (Springs × Option ℚ) :=
  if lm.sig_Hb && M.base_shear then
    match s.2 with
    | none => .error "UnboundLocalError: local variable pile_width referenced before assignment"
    | some pw =>
        .ok ({ s.1 with Hb := swapPair (lm.Hb_spring_fct (tipSpringArgs M layer sig_v_tip pw)) }, s.2)
  else .ok s

/-- The Mb write of the pile-tip block of `create_springs` (construct.py),
gated by declared Mb support AND the `base_moment` toggle. -/
def tipMbStep (M : ModelIn) (layer : Layer) (lm : LateralModel) (sig_v_tip : ℚ)
    (s : Springs × Option ℚ) : Except String (Springs × Option ℚ) :=
  if lm.sig_Mb && M.base_moment then
    match s.2 with
    | none => .error "UnboundLocalError: local variable pile_width referenced before assignment"
    | some pw =>
        .ok ({ s.1 with Mb := swapPair (lm.Mb_spring_fct (tipSpringArgs M layer sig_v_tip pw)) }, s.2)
  else .ok s

/-- The pile-tip block of `create_springs` (construct.py): when the pile
tip lies in the layer, `sig_v_tip` reads `iloc[-1]` of the table (raising
IndexError on an empty table), then the Hb and the Mb springs are written
in sequence, each gated by its declared-support flag AND its toggle. -/
def tipUpdate (M : ModelIn) (layer : Layer) (lm : LateralModel)
    (s : Springs × Option ℚ) : Except String (Springs × Option ℚ) :=
  if layer.top ≥ M.pile_bottom_elevation ∧ layer.bottom ≤ M.pile_bottom_elevation then
    match M.mesh.getLast? with
    | none => .error "IndexError: single positional indexer is out-of-bounds"
    | some lastRow =>
        match tipHbStep M layer lm lastRow.sigv_bottom s with
        | .error e => .error e
        | .ok s1 => tipMbStep M layer lm lastRow.sigv_bottom s1
  else .ok s

/-- One pass of the layer loop of `create_springs` (construct.py): layers
without a lateral model are skipped entirely; otherwise every covered
element is processed and then the pile-tip block runs. -/
def processLayer (M : ModelIn) (st : Except String (Springs × Option ℚ))
    (layer : Layer) : Except String (Springs × Option ℚ) :=
  match st with
  | .error e => .error e
  | .ok s =>
      match layer.lateral_model with
      | none => .ok s
      | some lm =>
          tipUpdate M layer lm
            ((coveredIdx M.mesh layer).foldl (elemUpdate M layer lm) s)

/-- `create_springs` (construct.py): zero allocation, layer loop, and the
final return of the spring arrays.  The negative/NaN diagnostics of the
source only print; they do not alter the arrays. -/
def create_springs (M : ModelIn) : Except String Springs :=
  (M.soil.layers.foldl (processLayer M)
    (.ok (initSprings M.mesh.length, none))).map Prod.fst

/-- Replaces the `mt_spring_fct` of a layer's lateral model (identity on
layers without one); used to state that a disabled m-t family never
evaluates its generator. -/
def mapLayerMtFct (f : SpringIn → List ℚ × List ℚ) (l : Layer) : Layer :=
  match l.lateral_model with
  | none => l
  | some lm => { l with lateral_model := some { lm with mt_spring_fct := f } }

/-- Replaces the `Hb_spring_fct` of a layer's lateral model. -/
def mapLayerHbFct (f : SpringIn → List ℚ × List ℚ) (l : Layer) : Layer :=
  match l.lateral_model with
  | none => l
  | some lm => { l with lateral_model := some { lm with Hb_spring_fct := f } }

/-- Replaces the `Mb_spring_fct` of a layer's lateral model. -/
def mapLayerMbFct (f : SpringIn → List ℚ × List ℚ) (l : Layer) : Layer :=
  match l.lateral_model with
  | none => l
  | some lm => { l with lateral_model := some { lm with Mb_spring_fct := f } }

/-- Model with every layer's `mt_spring_fct` replaced by `f`. -/
def mapModelMtFct (f : SpringIn → List ℚ × List ℚ) (M : ModelIn) : ModelIn :=
  { M with soil := { M.soil with layers := M.soil.layers.map (mapLayerMtFct f) } }

/-- Model with every layer's `Hb_spring_fct` replaced by `f`. -/
def mapModelHbFct (f : SpringIn → List ℚ × List ℚ) (M : ModelIn) : ModelIn :=
  { M with soil := { M.soil with layers := M.soil.layers.map (mapLayerHbFct f) } }

/-- Model with every layer's `Mb_spring_fct` replaced by `f`. -/
def mapModelMbFct (f : SpringIn → List ℚ × List ℚ) (M : ModelIn) : ModelIn :=
  { M with soil := { M.soil with layers := M.soil.layers.map (mapLayerMbFct f) } }

/-! ## construct.py: Model spring-table getters -/

/-- The fields of a built `Model` that `get_Hb_spring` and `get_Mb_spring`
read: the optional soil profile, `element_number`,
`pile.bottom_elevation`, and the stored `_Hb_spring` / `_Mb_spring` arrays
(shape `(1, 1, 2, spring_dim)`, here the two length-`spring_dim` rows). -/
structure ModelOut where
  soil : Option SoilProfile
  element_number : ℕ
  pile_bottom_elevation : ℚ
  Hb_spring : Arr2
  Mb_spring : Arr2

/-- The DataFrame assembled by the two base-spring getters: node number
and elevation columns (two identical entries), the two `type` labels, and
the two numeric rows produced by `reshape(2, spring_dim)`. -/
structure SpringTable where
  node_no : List ℕ
  elevation : List ℚ
  type_labels : List String
  rows : List (List ℚ)
deriving DecidableEq

/-- `Model.get_Hb_spring` (construct.py): `None` without a soil profile;
otherwise a table whose `type` column is `["Hb", "y"]` and whose numeric
rows are `self._Hb_spring.reshape(2, spring_dim)`. -/
def get_Hb_spring (mo : ModelOut) : Option SpringTable :=
  match mo.soil with
  | none => none
  | some _ =>
      some { node_no := [mo.element_number + 1, mo.element_number + 1],
             elevation := [mo.pile_bottom_elevation, mo.pile_bottom_elevation],
             type_labels := ["Hb", "y"],
             rows := [mo.Hb_spring.1, mo.Hb_spring.2] }

/-- `Model.get_Mb_spring` (construct.py, lines 1367-1392): `None` without
a soil profile; otherwise a table whose `type` column is `["Mb", "t"]` but
whose numeric rows are `self._Hb_spring.reshape(2, spring_dim)` — the
source reads `_Hb_spring`, not `_Mb_spring`, in both the `spring_dim`
lookup and the value assignment. -/
def get_Mb_spring (mo : ModelOut) : Option SpringTable :=
  match mo.soil with
  | none => none
  | some _ =>
      some { node_no := [mo.element_number + 1, mo.element_number + 1],
             elevation := [mo.pile_bottom_elevation, mo.pile_bottom_elevation],
             type_labels := ["Mb", "t"],
             rows := [mo.Hb_spring.1, mo.Hb_spring.2] }

/-! ## Claim-side definitions (written from the spec text, for the claims
that compare the code against the spec's formula) -/

/-- Layer weight update: the soil profile with layer `k`'s unit weight
replaced by `w` (geometry untouched).  Used to state the linearity claim
about `entrapped_soil_weight`. -/
def setLayerWeight (soil : SoilProfile) (k : ℕ) (w : ℚ) : SoilProfile :=
  let base := soil.layers.getD k { top := 0, bottom := 0, weight := 0 }
  { soil with layers := soil.layers.set k { base with weight := w } }

/-- Friction-multiplier update: the soil profile with layer `k`'s axial
`t_multiplier` replaced by `t` (identity when layer `k` has no axial
model).  Used to state the linearity claim about `shaft_resistance`. -/
def setLayerTmult (soil : SoilProfile) (k : ℕ) (t : ℚ) : SoilProfile :=
  let base := soil.layers.getD k { top := 0, bottom := 0, weight := 0 }
  let baseT :=
    match base.axial_model with
    | none => base
    | some am => { base with axial_model := some { am with t_multiplier := t } }
  { soil with layers := soil.layers.set k baseT }

/-! ## Helper lemmas: affine three-run analysis of the overwrite loops

The per-layer loops of `entrapped_soil_weight` and `shaft_resistance`
overwrite per-element slots.  To relate runs that differ only in one
layer's weight / friction multiplier we track three runs at once through
the pointwise combination `aff2 y x = 2 * y - x`. -/

/-- Affine combination used to compare the runs at parameter `2 * w`,
`w` and `0`. -/
def aff2 (y x : ℚ) : ℚ := 2 * y - x

theorem zipWith_aff2_self (l : List ℚ) : List.zipWith aff2 l l = l := by
  induction l with
  | nil => rfl
  | cons a as ih =>
      simp only [List.zipWith, ih, aff2]
      rw [show 2 * a - a = a by ring]

theorem zipWith_set (f : ℚ → ℚ → ℚ) :
    ∀ (a b : List ℚ) (i : ℕ) (x y : ℚ),
      (List.zipWith f a b).set i (f x y) =
        List.zipWith f (a.set i x) (b.set i y) := by
  intro a
  induction a with
  | nil => intro b i x y; simp
  | cons ha ta ih =>
      intro b i x y
      cases b with
      | nil => simp
      | cons hb tb =>
          cases i with
          | zero => simp [List.zipWith, List.set]
          | succ j => simp [List.zipWith, List.set, ih]

theorem writeAll_cons (i : ℕ) (is : List ℕ) (v : ℕ → ℚ) (st : List ℚ) :
    writeAll (i :: is) v st = writeAll is v (st.set i (v i)) := rfl

theorem writeAll_length (idxs : List ℕ) (v : ℕ → ℚ) :
    ∀ st : List ℚ, (writeAll idxs v st).length = st.length := by
  induction idxs with
  | nil => intro st; rfl
  | cons i is ih => intro st; rw [writeAll_cons, ih, List.length_set]

theorem writeAll_zipWith (f : ℚ → ℚ → ℚ) (vz v1 v0 : ℕ → ℚ)
    (hv : ∀ i, vz i = f (v1 i) (v0 i)) :
    ∀ (idxs : List ℕ) (b a : List ℚ),
      writeAll idxs vz (List.zipWith f b a) =
        List.zipWith f (writeAll idxs v1 b) (writeAll idxs v0 a) := by
  intro idxs
  induction idxs with
  | nil => intro b a; rfl
  | cons i is ih =>
      intro b a
      rw [writeAll_cons, writeAll_cons, writeAll_cons, hv i, zipWith_set, ih]

theorem sum_zipWith_aff2 :
    ∀ (b a : List ℚ), b.length = a.length →
      (List.zipWith aff2 b a).sum = 2 * b.sum - a.sum := by
  intro b
  induction b with
  | nil =>
      intro a h
      have : a = [] := List.eq_nil_of_length_eq_zero h.symm
      simp [this]
  | cons hb tb ih =>
      intro a h
      cases a with
      | nil => simp at h
      | cons ha ta =>
          simp only [List.zipWith, List.sum_cons, aff2]
          rw [ih ta (by simpa using h)]
          ring

/-- Default layer (only used to make `List.getD` total in the update
helpers; updating an out-of-range index is a no-op). -/
def dflLayer : Layer := { top := 0, bottom := 0, weight := 0 }

/-- A layer with its unit weight replaced. -/
def layerWithWeight (l : Layer) (w : ℚ) : Layer := { l with weight := w }

/-- A layer with its axial `t_multiplier` replaced (identity when there is
no axial model). -/
def layerWithTmult (l : Layer) (t : ℚ) : Layer :=
  match l.axial_model with
  | none => l
  | some am => { l with axial_model := some { am with t_multiplier := t } }

theorem setLayerWeight_layers (soil : SoilProfile) (k : ℕ) (w : ℚ) :
    (setLayerWeight soil k w).layers =
      soil.layers.set k (layerWithWeight (soil.layers.getD k dflLayer) w) := rfl

theorem setLayerTmult_layers (soil : SoilProfile) (k : ℕ) (t : ℚ) :
    (setLayerTmult soil k t).layers =
      soil.layers.set k (layerWithTmult (soil.layers.getD k dflLayer) t) := by
  simp only [setLayerTmult, layerWithTmult, dflLayer]

theorem coveredIdx_layerWithWeight (mesh : List Row) (l : Layer) (w : ℚ) :
    coveredIdx mesh (layerWithWeight l w) = coveredIdx mesh l := rfl

theorem entrappedTerm_aff (piq wl : ℚ) (mesh : List Row) (l : Layer) (w : ℚ)
    (i : ℕ) :
    entrappedTerm piq wl mesh (layerWithWeight l (2 * w)) i =
      aff2 (entrappedTerm piq wl mesh (layerWithWeight l w) i)
        (entrappedTerm piq wl mesh (layerWithWeight l 0) i) := by
  simp only [entrappedTerm, layerWithWeight, aff2]
  split <;> ring

theorem entrapped_foldl_zip (piq wl : ℚ) (mesh : List Row) :
    ∀ (ls : List Layer) (b a : List ℚ),
      List.foldl
        (fun sw layer =>
          writeAll (coveredIdx mesh layer) (entrappedTerm piq wl mesh layer) sw)
        (List.zipWith aff2 b a) ls =
      List.zipWith aff2
        (List.foldl
          (fun sw layer =>
            writeAll (coveredIdx mesh layer) (entrappedTerm piq wl mesh layer) sw)
          b ls)
        (List.foldl
          (fun sw layer =>
            writeAll (coveredIdx mesh layer) (entrappedTerm piq wl mesh layer) sw)
          a ls) := by
  intro ls
  induction ls with
  | nil => intro b a; rfl
  | cons l tl ih =>
      intro b a
      simp only [List.foldl_cons]
      rw [writeAll_zipWith aff2 (entrappedTerm piq wl mesh l)
        (entrappedTerm piq wl mesh l) (entrappedTerm piq wl mesh l)
        (by intro i; simp [aff2]; ring)]
      exact ih _ _

theorem entrapped_foldl_aff (piq wl : ℚ) (mesh : List Row) :
    ∀ (ls : List Layer) (k : ℕ) (w : ℚ) (b a : List ℚ),
      List.foldl
        (fun sw layer =>
          writeAll (coveredIdx mesh layer) (entrappedTerm piq wl mesh layer) sw)
        (List.zipWith aff2 b a)
        (ls.set k (layerWithWeight (ls.getD k dflLayer) (2 * w))) =
      List.zipWith aff2
        (List.foldl
          (fun sw layer =>
            writeAll (coveredIdx mesh layer) (entrappedTerm piq wl mesh layer) sw)
          b (ls.set k (layerWithWeight (ls.getD k dflLayer) w)))
        (List.foldl
          (fun sw layer =>
            writeAll (coveredIdx mesh layer) (entrappedTerm piq wl mesh layer) sw)
          a (ls.set k (layerWithWeight (ls.getD k dflLayer) 0))) := by
  intro ls
  induction ls with
  | nil => intro k w b a; simp
  | cons l tl ih =>
      intro k w b a
      cases k with
      | zero =>
          simp only [List.set_cons_zero, List.getD_cons_zero, List.foldl_cons]
          rw [coveredIdx_layerWithWeight,
            writeAll_zipWith aff2 (entrappedTerm piq wl mesh (layerWithWeight l (2 * w)))
              (entrappedTerm piq wl mesh (layerWithWeight l w))
              (entrappedTerm piq wl mesh (layerWithWeight l 0))
              (entrappedTerm_aff piq wl mesh l w)]
          exact entrapped_foldl_zip piq wl mesh tl _ _
      | succ k' =>
          simp only [List.set_cons_succ, List.getD_cons_succ, List.foldl_cons]
          rw [writeAll_zipWith aff2 (entrappedTerm piq wl mesh l)
            (entrappedTerm piq wl mesh l) (entrappedTerm piq wl mesh l)
            (by intro i; simp [aff2]; ring)]
          exact ih k' w _ _

theorem entrapped_foldl_length (piq wl : ℚ) (mesh : List Row) :
    ∀ (ls : List Layer) (st : List ℚ),
      (List.foldl
        (fun sw layer =>
          writeAll (coveredIdx mesh layer) (entrappedTerm piq wl mesh layer) sw)
        st ls).length = st.length := by
  intro ls
  induction ls with
  | nil => intro st; rfl
  | cons l tl ih => intro st; simp only [List.foldl_cons]; rw [ih, writeAll_length]

theorem coveredIdx_layerWithTmult (mesh : List Row) (l : Layer) (t : ℚ) :
    coveredIdx mesh (layerWithTmult l t) = coveredIdx mesh l := by
  cases h : l.axial_model <;> simp [layerWithTmult, h, coveredIdx]

theorem shaftUpdate_zip (piq : ℚ) (mesh : List Row) (layer : Layer)
    (b a : List ℚ × List ℚ) :
    shaftUpdate piq mesh (List.zipWith aff2 b.1 a.1, List.zipWith aff2 b.2 a.2) layer =
      ((List.zipWith aff2 (shaftUpdate piq mesh b layer).1 (shaftUpdate piq mesh a layer).1),
       (List.zipWith aff2 (shaftUpdate piq mesh b layer).2 (shaftUpdate piq mesh a layer).2)) := by
  cases h : layer.axial_model with
  | none => simp [shaftUpdate, h]
  | some am =>
      simp only [shaftUpdate, h]
      rw [writeAll_zipWith aff2 (shaftTermOut piq mesh layer am)
            (shaftTermOut piq mesh layer am) (shaftTermOut piq mesh layer am)
            (by intro i; simp [aff2]; ring),
          writeAll_zipWith aff2 (shaftTermIn piq mesh layer am)
            (shaftTermIn piq mesh layer am) (shaftTermIn piq mesh layer am)
            (by intro i; simp [aff2]; ring)]

theorem shaftUpdate_aff (piq : ℚ) (mesh : List Row) (l : Layer) (t : ℚ)
    (b a : List ℚ × List ℚ) :
    shaftUpdate piq mesh (List.zipWith aff2 b.1 a.1, List.zipWith aff2 b.2 a.2)
        (layerWithTmult l (2 * t)) =
      ((List.zipWith aff2 (shaftUpdate piq mesh b (layerWithTmult l t)).1
          (shaftUpdate piq mesh a (layerWithTmult l 0)).1),
       (List.zipWith aff2 (shaftUpdate piq mesh b (layerWithTmult l t)).2
          (shaftUpdate piq mesh a (layerWithTmult l 0)).2)) := by
  cases h : l.axial_model with
  | none => simpa [layerWithTmult, h] using shaftUpdate_zip piq mesh l b a
  | some am =>
      have h2t : layerWithTmult l (2 * t) =
          { l with axial_model := some { am with t_multiplier := 2 * t } } := by
        simp [layerWithTmult, h]
      have ht : layerWithTmult l t =
          { l with axial_model := some { am with t_multiplier := t } } := by
        simp [layerWithTmult, h]
      have h0 : layerWithTmult l 0 =
          { l with axial_model := some { am with t_multiplier := 0 } } := by
        simp [layerWithTmult, h]
      rw [h2t, ht, h0]
      simp only [shaftUpdate]
      rw [writeAll_zipWith aff2
            (shaftTermOut piq mesh { l with axial_model := some { am with t_multiplier := 2 * t } }
              { am with t_multiplier := 2 * t })
            (shaftTermOut piq mesh { l with axial_model := some { am with t_multiplier := t } }
              { am with t_multiplier := t })
            (shaftTermOut piq mesh { l with axial_model := some { am with t_multiplier := 0 } }
              { am with t_multiplier := 0 })
            (by intro i; simp [shaftTermOut, aff2]; ring),
          writeAll_zipWith aff2
            (shaftTermIn piq mesh { l with axial_model := some { am with t_multiplier := 2 * t } }
              { am with t_multiplier := 2 * t })
            (shaftTermIn piq mesh { l with axial_model := some { am with t_multiplier := t } }
              { am with t_multiplier := t })
            (shaftTermIn piq mesh { l with axial_model := some { am with t_multiplier := 0 } }
              { am with t_multiplier := 0 })
            (by intro i; simp [shaftTermIn, aff2]; ring)]
      rfl

theorem shaft_foldl_zip (piq : ℚ) (mesh : List Row) :
    ∀ (ls : List Layer) (b a : List ℚ × List ℚ),
      List.foldl (shaftUpdate piq mesh)
        (List.zipWith aff2 b.1 a.1, List.zipWith aff2 b.2 a.2) ls =
      ((List.zipWith aff2 (List.foldl (shaftUpdate piq mesh) b ls).1
          (List.foldl (shaftUpdate piq mesh) a ls).1),
       (List.zipWith aff2 (List.foldl (shaftUpdate piq mesh) b ls).2
          (List.foldl (shaftUpdate piq mesh) a ls).2)) := by
  intro ls
  induction ls with
  | nil => intro b a; rfl
  | cons l tl ih =>
      intro b a
      simp only [List.foldl_cons]
      rw [shaftUpdate_zip piq mesh l b a]
      exact ih _ _

theorem shaft_foldl_aff (piq : ℚ) (mesh : List Row) :
    ∀ (ls : List Layer) (k : ℕ) (t : ℚ) (b a : List ℚ × List ℚ),
      List.foldl (shaftUpdate piq mesh)
        (List.zipWith aff2 b.1 a.1, List.zipWith aff2 b.2 a.2)
        (ls.set k (layerWithTmult (ls.getD k dflLayer) (2 * t))) =
      ((List.zipWith aff2
          (List.foldl (shaftUpdate piq mesh) b
            (ls.set k (layerWithTmult (ls.getD k dflLayer) t))).1
          (List.foldl (shaftUpdate piq mesh) a
            (ls.set k (layerWithTmult (ls.getD k dflLayer) 0))).1),
       (List.zipWith aff2
          (List.foldl (shaftUpdate piq mesh) b
            (ls.set k (layerWithTmult (ls.getD k dflLayer) t))).2
          (List.foldl (shaftUpdate piq mesh) a
            (ls.set k (layerWithTmult (ls.getD k dflLayer) 0))).2)) := by
  intro ls
  induction ls with
  | nil => intro k t b a; simp
  | cons l tl ih =>
      intro k t b a
      cases k with
      | zero =>
          simp only [List.set_cons_zero, List.getD_cons_zero, List.foldl_cons]
          rw [shaftUpdate_aff piq mesh l t b a]
          exact shaft_foldl_zip piq mesh tl _ _
      | succ k' =>
          simp only [List.set_cons_succ, List.getD_cons_succ, List.foldl_cons]
          rw [shaftUpdate_zip piq mesh l b a]
          exact ih k' t _ _

theorem shaft_foldl_length (piq : ℚ) (mesh : List Row) :
    ∀ (ls : List Layer) (st : List ℚ × List ℚ),
      (List.foldl (shaftUpdate piq mesh) st ls).1.length = st.1.length ∧
      (List.foldl (shaftUpdate piq mesh) st ls).2.length = st.2.length := by
  intro ls
  induction ls with
  | nil => intro st; exact ⟨rfl, rfl⟩
  | cons l tl ih =>
      intro st
      simp only [List.foldl_cons]
      refine ⟨?_, ?_⟩ <;>
        cases h : l.axial_model <;>
          simp [(ih _).1, (ih _).2, shaftUpdate, h, writeAll_length]

/-! ## Helper lemmas for the spring-toggle claim -/

theorem foldl_fun_congr {α β : Type} (f g : α → β → α) :
    ∀ (l : List β) (s : α), (∀ s b, f s b = g s b) → l.foldl f s = l.foldl g s := by
  intro l
  induction l with
  | nil => intro s _; rfl
  | cons b bs ih => intro s h; simp only [List.foldl_cons]; rw [h]; exact ih _ h

theorem elemUpdate_fst_mt (M : ModelIn) (layer : Layer) (lm : LateralModel)
    (st : Springs × Option ℚ) (i : ℕ) (h : M.distributed_moment = false) :
    ((elemUpdate M layer lm st i).1).mt = (st.1).mt := by
  simp only [elemUpdate, h, Bool.and_false, Bool.false_eq_true, if_false]
  split <;> rfl

theorem elemUpdate_fst_Hb (M : ModelIn) (layer : Layer) (lm : LateralModel)
    (st : Springs × Option ℚ) (i : ℕ) :
    ((elemUpdate M layer lm st i).1).Hb = (st.1).Hb := by
  simp only [elemUpdate]
  split <;> split <;> rfl

theorem elemUpdate_fst_Mb (M : ModelIn) (layer : Layer) (lm : LateralModel)
    (st : Springs × Option ℚ) (i : ℕ) :
    ((elemUpdate M layer lm st i).1).Mb = (st.1).Mb := by
  simp only [elemUpdate]
  split <;> split <;> rfl

theorem foldl_elemUpdate_fst_mt (M : ModelIn) (layer : Layer) (lm : LateralModel)
    (h : M.distributed_moment = false) :
    ∀ (idxs : List ℕ) (s : Springs × Option ℚ),
      ((idxs.foldl (elemUpdate M layer lm) s).1).mt = (s.1).mt := by
  intro idxs
  induction idxs with
  | nil => intro s; rfl
  | cons i is ih =>
      intro s
      simp only [List.foldl_cons]
      rw [ih, elemUpdate_fst_mt M layer lm s i h]

theorem foldl_elemUpdate_fst_Hb (M : ModelIn) (layer : Layer) (lm : LateralModel) :
    ∀ (idxs : List ℕ) (s : Springs × Option ℚ),
      ((idxs.foldl (elemUpdate M layer lm) s).1).Hb = (s.1).Hb := by
  intro idxs
  induction idxs with
  | nil => intro s; rfl
  | cons i is ih =>
      intro s
      simp only [List.foldl_cons]
      rw [ih, elemUpdate_fst_Hb]

theorem foldl_elemUpdate_fst_Mb (M : ModelIn) (layer : Layer) (lm : LateralModel) :
    ∀ (idxs : List ℕ) (s : Springs × Option ℚ),
      ((idxs.foldl (elemUpdate M layer lm) s).1).Mb = (s.1).Mb := by
  intro idxs
  induction idxs with
  | nil => intro s; rfl
  | cons i is ih =>
      intro s
      simp only [List.foldl_cons]
      rw [ih, elemUpdate_fst_Mb]

theorem tipHbStep_ok_preserves (M : ModelIn) (layer : Layer) (lm : LateralModel)
    (sv : ℚ) (s s' : Springs × Option ℚ)
    (hok : tipHbStep M layer lm sv s = .ok s') :
    s'.1.mt = s.1.mt ∧ s'.1.Mb = s.1.Mb := by
  unfold tipHbStep at hok
  split at hok
  · cases hs : s.2 with
    | none => rw [hs] at hok; cases hok
    | some pw => rw [hs] at hok; cases hok; exact ⟨rfl, rfl⟩
  · cases hok; exact ⟨rfl, rfl⟩

theorem tipMbStep_ok_preserves (M : ModelIn) (layer : Layer) (lm : LateralModel)
    (sv : ℚ) (s s' : Springs × Option ℚ)
    (hok : tipMbStep M layer lm sv s = .ok s') :
    s'.1.mt = s.1.mt ∧ s'.1.Hb = s.1.Hb := by
  unfold tipMbStep at hok
  split at hok
  · cases hs : s.2 with
    | none => rw [hs] at hok; cases hok
    | some pw => rw [hs] at hok; cases hok; exact ⟨rfl, rfl⟩
  · cases hok; exact ⟨rfl, rfl⟩

theorem tipHbStep_bs_false (M : ModelIn) (layer : Layer) (lm : LateralModel)
    (sv : ℚ) (s : Springs × Option ℚ) (h : M.base_shear = false) :
    tipHbStep M layer lm sv s = .ok s := by
  simp [tipHbStep, h]

theorem tipMbStep_bm_false (M : ModelIn) (layer : Layer) (lm : LateralModel)
    (sv : ℚ) (s : Springs × Option ℚ) (h : M.base_moment = false) :
    tipMbStep M layer lm sv s = .ok s := by
  simp [tipMbStep, h]

theorem tipUpdate_ok_mt (M : ModelIn) (layer : Layer) (lm : LateralModel)
    (s s' : Springs × Option ℚ) (hok : tipUpdate M layer lm s = .ok s') :
    s'.1.mt = s.1.mt := by
  unfold tipUpdate at hok
  split at hok
  · split at hok
    · cases hok
    · rename_i lastRow hl
      split at hok
      · cases hok
      · rename_i s1 hhb
        rw [(tipMbStep_ok_preserves M layer lm _ s1 s' hok).1,
          (tipHbStep_ok_preserves M layer lm _ s s1 hhb).1]
  · cases hok; rfl

theorem tipUpdate_ok_Hb (M : ModelIn) (layer : Layer) (lm : LateralModel)
    (s s' : Springs × Option ℚ) (h : M.base_shear = false)
    (hok : tipUpdate M layer lm s = .ok s') :
    s'.1.Hb = s.1.Hb := by
  unfold tipUpdate at hok
  split at hok
  · split at hok
    · cases hok
    · rename_i lastRow hl
      rw [tipHbStep_bs_false M layer lm _ s h] at hok
      exact (tipMbStep_ok_preserves M layer lm _ s s' hok).2
  · cases hok; rfl

theorem tipUpdate_ok_Mb (M : ModelIn) (layer : Layer) (lm : LateralModel)
    (s s' : Springs × Option ℚ) (h : M.base_moment = false)
    (hok : tipUpdate M layer lm s = .ok s') :
    s'.1.Mb = s.1.Mb := by
  unfold tipUpdate at hok
  split at hok
  · split at hok
    · cases hok
    · rename_i lastRow hl
      split at hok
      · cases hok
      · rename_i s1 hhb
        rw [tipMbStep_bm_false M layer lm _ s1 h] at hok
        obtain rfl : s1 = s' := by injection hok
        exact (tipHbStep_ok_preserves M layer lm _ s _ hhb).2
  · cases hok; rfl

theorem processLayer_ok_mt (M : ModelIn) (layer : Layer)
    (e : Except String (Springs × Option ℚ)) (s' : Springs × Option ℚ)
    (h : M.distributed_moment = false)
    (hok : processLayer M e layer = .ok s') :
    ∃ s, e = .ok s ∧ s'.1.mt = s.1.mt := by
  unfold processLayer at hok
  cases e with
  | error msg => cases hok
  | ok s =>
      refine ⟨s, rfl, ?_⟩
      cases hlm : layer.lateral_model with
      | none => rw [hlm] at hok; cases hok; rfl
      | some lm =>
          rw [hlm] at hok
          rw [tipUpdate_ok_mt M layer lm _ s' hok,
            foldl_elemUpdate_fst_mt M layer lm h]

theorem processLayer_ok_Hb (M : ModelIn) (layer : Layer)
    (e : Except String (Springs × Option ℚ)) (s' : Springs × Option ℚ)
    (h : M.base_shear = false)
    (hok : processLayer M e layer = .ok s') :
    ∃ s, e = .ok s ∧ s'.1.Hb = s.1.Hb := by
  unfold processLayer at hok
  cases e with
  | error msg => cases hok
  | ok s =>
      refine ⟨s, rfl, ?_⟩
      cases hlm : layer.lateral_model with
      | none => rw [hlm] at hok; cases hok; rfl
      | some lm =>
          rw [hlm] at hok
          rw [tipUpdate_ok_Hb M layer lm _ s' h hok,
            foldl_elemUpdate_fst_Hb M layer lm]

theorem processLayer_ok_Mb (M : ModelIn) (layer : Layer)
    (e : Except String (Springs × Option ℚ)) (s' : Springs × Option ℚ)
    (h : M.base_moment = false)
    (hok : processLayer M e layer = .ok s') :
    ∃ s, e = .ok s ∧ s'.1.Mb = s.1.Mb := by
  unfold processLayer at hok
  cases e with
  | error msg => cases hok
  | ok s =>
      refine ⟨s, rfl, ?_⟩
      cases hlm : layer.lateral_model with
      | none => rw [hlm] at hok; cases hok; rfl
      | some lm =>
          rw [hlm] at hok
          rw [tipUpdate_ok_Mb M layer lm _ s' h hok,
            foldl_elemUpdate_fst_Mb M layer lm]

theorem foldl_processLayer_ok_mt (M : ModelIn) (h : M.distributed_moment = false) :
    ∀ (ls : List Layer) (e : Except String (Springs × Option ℚ))
      (s' : Springs × Option ℚ),
      ls.foldl (processLayer M) e = .ok s' →
      ∃ s, e = .ok s ∧ s'.1.mt = s.1.mt := by
  intro ls
  induction ls with
  | nil => intro e s' hok; cases e with
      | error msg => cases hok
      | ok s => exact ⟨s, rfl, by cases hok; rfl⟩
  | cons l tl ih =>
      intro e s' hok
      simp only [List.foldl_cons] at hok
      obtain ⟨s1, h1, hmt1⟩ := ih _ _ hok
      obtain ⟨s, hs, hmt⟩ := processLayer_ok_mt M l e s1 h h1
      exact ⟨s, hs, by rw [hmt1, hmt]⟩

theorem foldl_processLayer_ok_Hb (M : ModelIn) (h : M.base_shear = false) :
    ∀ (ls : List Layer) (e : Except String (Springs × Option ℚ))
      (s' : Springs × Option ℚ),
      ls.foldl (processLayer M) e = .ok s' →
      ∃ s, e = .ok s ∧ s'.1.Hb = s.1.Hb := by
  intro ls
  induction ls with
  | nil => intro e s' hok; cases e with
      | error msg => cases hok
      | ok s => exact ⟨s, rfl, by cases hok; rfl⟩
  | cons l tl ih =>
      intro e s' hok
      simp only [List.foldl_cons] at hok
      obtain ⟨s1, h1, hq1⟩ := ih _ _ hok
      obtain ⟨s, hs, hq⟩ := processLayer_ok_Hb M l e s1 h h1
      exact ⟨s, hs, by rw [hq1, hq]⟩

theorem foldl_processLayer_ok_Mb (M : ModelIn) (h : M.base_moment = false) :
    ∀ (ls : List Layer) (e : Except String (Springs × Option ℚ))
      (s' : Springs × Option ℚ),
      ls.foldl (processLayer M) e = .ok s' →
      ∃ s, e = .ok s ∧ s'.1.Mb = s.1.Mb := by
  intro ls
  induction ls with
  | nil => intro e s' hok; cases e with
      | error msg => cases hok
      | ok s => exact ⟨s, rfl, by cases hok; rfl⟩
  | cons l tl ih =>
      intro e s' hok
      simp only [List.foldl_cons] at hok
      obtain ⟨s1, h1, hq1⟩ := ih _ _ hok
      obtain ⟨s, hs, hq⟩ := processLayer_ok_Mb M l e s1 h h1
      exact ⟨s, hs, by rw [hq1, hq]⟩

theorem create_springs_ok_elim (M : ModelIn) (st : Springs)
    (hok : create_springs M = .ok st) :
    ∃ pw, M.soil.layers.foldl (processLayer M)
      (.ok (initSprings M.mesh.length, none)) = .ok (st, pw) := by
  unfold create_springs at hok
  cases he : M.soil.layers.foldl (processLayer M)
      (.ok (initSprings M.mesh.length, none)) with
  | error msg => rw [he] at hok; cases hok
  | ok s =>
      rw [he] at hok
      refine ⟨s.2, ?_⟩
      simp only [Except.map] at hok
      cases hok
      rfl

theorem mapLayerMtFct_top (f : SpringIn → List ℚ × List ℚ) (l : Layer) :
    (mapLayerMtFct f l).top = l.top := by
  cases h : l.lateral_model <;> simp [mapLayerMtFct, h]

theorem mapLayerMtFct_bottom (f : SpringIn → List ℚ × List ℚ) (l : Layer) :
    (mapLayerMtFct f l).bottom = l.bottom := by
  cases h : l.lateral_model <;> simp [mapLayerMtFct, h]

theorem mapLayerHbFct_top (f : SpringIn → List ℚ × List ℚ) (l : Layer) :
    (mapLayerHbFct f l).top = l.top := by
  cases h : l.lateral_model <;> simp [mapLayerHbFct, h]

theorem mapLayerHbFct_bottom (f : SpringIn → List ℚ × List ℚ) (l : Layer) :
    (mapLayerHbFct f l).bottom = l.bottom := by
  cases h : l.lateral_model <;> simp [mapLayerHbFct, h]

theorem mapLayerMbFct_top (f : SpringIn → List ℚ × List ℚ) (l : Layer) :
    (mapLayerMbFct f l).top = l.top := by
  cases h : l.lateral_model <;> simp [mapLayerMbFct, h]

theorem mapLayerMbFct_bottom (f : SpringIn → List ℚ × List ℚ) (l : Layer) :
    (mapLayerMbFct f l).bottom = l.bottom := by
  cases h : l.lateral_model <;> simp [mapLayerMbFct, h]

theorem bottom_elevation_map (g : Layer → Layer)
    (htop : ∀ l, (g l).top = l.top) (hbot : ∀ l, (g l).bottom = l.bottom)
    (te wl : ℚ) (ls : List Layer) :
    SoilProfile.bottom_elevation { top_elevation := te, water_line := wl, layers := ls.map g } =
      SoilProfile.bottom_elevation { top_elevation := te, water_line := wl, layers := ls } := by
  simp only [SoilProfile.bottom_elevation, List.map_map]
  congr 2
  apply List.map_congr_left
  intro l _
  simp [htop l, hbot l]

theorem coveredIdx_congr (mesh : List Row) (l l' : Layer)
    (htop : l'.top = l.top) (hbot : l'.bottom = l.bottom) :
    coveredIdx mesh l' = coveredIdx mesh l := by
  simp [coveredIdx, htop, hbot]

theorem mapModelMtFct_bottom_elevation (f : SpringIn → List ℚ × List ℚ) (M : ModelIn) :
    (mapModelMtFct f M).soil.bottom_elevation = M.soil.bottom_elevation := by
  cases M with
  | mk pb soil mesh dl dm bs bm =>
      cases soil with
      | mk te wl ls =>
          exact bottom_elevation_map (mapLayerMtFct f) (mapLayerMtFct_top f)
            (mapLayerMtFct_bottom f) te wl ls

theorem mapModelHbFct_bottom_elevation (f : SpringIn → List ℚ × List ℚ) (M : ModelIn) :
    (mapModelHbFct f M).soil.bottom_elevation = M.soil.bottom_elevation := by
  cases M with
  | mk pb soil mesh dl dm bs bm =>
      cases soil with
      | mk te wl ls =>
          exact bottom_elevation_map (mapLayerHbFct f) (mapLayerHbFct_top f)
            (mapLayerHbFct_bottom f) te wl ls

theorem mapModelMbFct_bottom_elevation (f : SpringIn → List ℚ × List ℚ) (M : ModelIn) :
    (mapModelMbFct f M).soil.bottom_elevation = M.soil.bottom_elevation := by
  cases M with
  | mk pb soil mesh dl dm bs bm =>
      cases soil with
      | mk te wl ls =>
          exact bottom_elevation_map (mapLayerMbFct f) (mapLayerMbFct_top f)
            (mapLayerMbFct_bottom f) te wl ls

theorem elemSpringArgs_mapMt (f : SpringIn → List ℚ × List ℚ) (M : ModelIn)
    (layer : Layer) (i j : ℕ) :
    elemSpringArgs (mapModelMtFct f M) (mapLayerMtFct f layer) i j =
      elemSpringArgs M layer i j := by
  simp [elemSpringArgs, mapModelMtFct, mapLayerMtFct_top, mapLayerMtFct_bottom]

theorem elemSpringArgs_mapHb (f : SpringIn → List ℚ × List ℚ) (M : ModelIn)
    (layer : Layer) (i j : ℕ) :
    elemSpringArgs (mapModelHbFct f M) (mapLayerHbFct f layer) i j =
      elemSpringArgs M layer i j := by
  simp [elemSpringArgs, mapModelHbFct, mapLayerHbFct_top, mapLayerHbFct_bottom]

theorem elemSpringArgs_mapMb (f : SpringIn → List ℚ × List ℚ) (M : ModelIn)
    (layer : Layer) (i j : ℕ) :
    elemSpringArgs (mapModelMbFct f M) (mapLayerMbFct f layer) i j =
      elemSpringArgs M layer i j := by
  simp [elemSpringArgs, mapModelMbFct, mapLayerMbFct_top, mapLayerMbFct_bottom]

theorem tipSpringArgs_mapMt (f : SpringIn → List ℚ × List ℚ) (M : ModelIn)
    (layer : Layer) (sv pw : ℚ) :
    tipSpringArgs (mapModelMtFct f M) (mapLayerMtFct f layer) sv pw =
      tipSpringArgs M layer sv pw := by
  simp [tipSpringArgs, mapModelMtFct, mapLayerMtFct_top, mapLayerMtFct_bottom]
  exact bottom_elevation_map (mapLayerMtFct f) (mapLayerMtFct_top f)
    (mapLayerMtFct_bottom f) M.soil.top_elevation M.soil.water_line M.soil.layers

theorem tipSpringArgs_mapHb (f : SpringIn → List ℚ × List ℚ) (M : ModelIn)
    (layer : Layer) (sv pw : ℚ) :
    tipSpringArgs (mapModelHbFct f M) (mapLayerHbFct f layer) sv pw =
      tipSpringArgs M layer sv pw := by
  simp [tipSpringArgs, mapModelHbFct, mapLayerHbFct_top, mapLayerHbFct_bottom]
  exact bottom_elevation_map (mapLayerHbFct f) (mapLayerHbFct_top f)
    (mapLayerHbFct_bottom f) M.soil.top_elevation M.soil.water_line M.soil.layers

theorem tipSpringArgs_mapMb (f : SpringIn → List ℚ × List ℚ) (M : ModelIn)
    (layer : Layer) (sv pw : ℚ) :
    tipSpringArgs (mapModelMbFct f M) (mapLayerMbFct f layer) sv pw =
      tipSpringArgs M layer sv pw := by
  simp [tipSpringArgs, mapModelMbFct, mapLayerMbFct_top, mapLayerMbFct_bottom]
  exact bottom_elevation_map (mapLayerMbFct f) (mapLayerMbFct_top f)
    (mapLayerMbFct_bottom f) M.soil.top_elevation M.soil.water_line M.soil.layers

theorem mapLayerMtFct_lateral (f : SpringIn → List ℚ × List ℚ) (l : Layer)
    (lm : LateralModel) (h : l.lateral_model = some lm) :
    (mapLayerMtFct f l).lateral_model = some { lm with mt_spring_fct := f } := by
  simp [mapLayerMtFct, h]

theorem mapLayerHbFct_lateral (f : SpringIn → List ℚ × List ℚ) (l : Layer)
    (lm : LateralModel) (h : l.lateral_model = some lm) :
    (mapLayerHbFct f l).lateral_model = some { lm with Hb_spring_fct := f } := by
  simp [mapLayerHbFct, h]

theorem mapLayerMbFct_lateral (f : SpringIn → List ℚ × List ℚ) (l : Layer)
    (lm : LateralModel) (h : l.lateral_model = some lm) :
    (mapLayerMbFct f l).lateral_model = some { lm with Mb_spring_fct := f } := by
  simp [mapLayerMbFct, h]

theorem elemUpdate_mapMt (f : SpringIn → List ℚ × List ℚ) (M : ModelIn)
    (layer : Layer) (lm : LateralModel) (st : Springs × Option ℚ) (i : ℕ)
    (hdm : M.distributed_moment = false) :
    elemUpdate (mapModelMtFct f M) (mapLayerMtFct f layer)
        { lm with mt_spring_fct := f } st i = elemUpdate M layer lm st i := by
  simp only [elemUpdate, elemSpringArgs_mapMt]
  cases M with
  | mk pb soil mesh dl dm bs bm =>
      simp only [ModelIn.distributed_moment] at hdm
      subst hdm
      simp [mapModelMtFct]

theorem elemUpdate_mapHb (f : SpringIn → List ℚ × List ℚ) (M : ModelIn)
    (layer : Layer) (lm : LateralModel) (st : Springs × Option ℚ) (i : ℕ) :
    elemUpdate (mapModelHbFct f M) (mapLayerHbFct f layer)
        { lm with Hb_spring_fct := f } st i = elemUpdate M layer lm st i := by
  simp only [elemUpdate, elemSpringArgs_mapHb]
  cases M with
  | mk pb soil mesh dl dm bs bm => simp [mapModelHbFct]

theorem elemUpdate_mapMb (f : SpringIn → List ℚ × List ℚ) (M : ModelIn)
    (layer : Layer) (lm : LateralModel) (st : Springs × Option ℚ) (i : ℕ) :
    elemUpdate (mapModelMbFct f M) (mapLayerMbFct f layer)
        { lm with Mb_spring_fct := f } st i = elemUpdate M layer lm st i := by
  simp only [elemUpdate, elemSpringArgs_mapMb]
  cases M with
  | mk pb soil mesh dl dm bs bm => simp [mapModelMbFct]

theorem tipHbStep_mapMt (f : SpringIn → List ℚ × List ℚ) (M : ModelIn)
    (layer : Layer) (lm : LateralModel) (sv : ℚ) (s : Springs × Option ℚ) :
    tipHbStep (mapModelMtFct f M) (mapLayerMtFct f layer)
        { lm with mt_spring_fct := f } sv s = tipHbStep M layer lm sv s := by
  simp only [tipHbStep, tipSpringArgs_mapMt]
  cases M with
  | mk pb soil mesh dl dm bs bm => simp [mapModelMtFct]

theorem tipMbStep_mapMt (f : SpringIn → List ℚ × List ℚ) (M : ModelIn)
    (layer : Layer) (lm : LateralModel) (sv : ℚ) (s : Springs × Option ℚ) :
    tipMbStep (mapModelMtFct f M) (mapLayerMtFct f layer)
        { lm with mt_spring_fct := f } sv s = tipMbStep M layer lm sv s := by
  simp only [tipMbStep, tipSpringArgs_mapMt]
  cases M with
  | mk pb soil mesh dl dm bs bm => simp [mapModelMtFct]

theorem tipHbStep_mapHb (f : SpringIn → List ℚ × List ℚ) (M : ModelIn)
    (layer : Layer) (lm : LateralModel) (sv : ℚ) (s : Springs × Option ℚ)
    (hbs : M.base_shear = false) :
    tipHbStep (mapModelHbFct f M) (mapLayerHbFct f layer)
        { lm with Hb_spring_fct := f } sv s = tipHbStep M layer lm sv s := by
  rw [tipHbStep_bs_false _ _ _ _ _ hbs, tipHbStep_bs_false]
  cases M with
  | mk pb soil mesh dl dm bs bm =>
      simp only [ModelIn.base_shear] at hbs
      subst hbs
      rfl

theorem tipMbStep_mapHb (f : SpringIn → List ℚ × List ℚ) (M : ModelIn)
    (layer : Layer) (lm : LateralModel) (sv : ℚ) (s : Springs × Option ℚ) :
    tipMbStep (mapModelHbFct f M) (mapLayerHbFct f layer)
        { lm with Hb_spring_fct := f } sv s = tipMbStep M layer lm sv s := by
  simp only [tipMbStep, tipSpringArgs_mapHb]
  cases M with
  | mk pb soil mesh dl dm bs bm => simp [mapModelHbFct]

theorem tipHbStep_mapMb (f : SpringIn → List ℚ × List ℚ) (M : ModelIn)
    (layer : Layer) (lm : LateralModel) (sv : ℚ) (s : Springs × Option ℚ) :
    tipHbStep (mapModelMbFct f M) (mapLayerMbFct f layer)
        { lm with Mb_spring_fct := f } sv s = tipHbStep M layer lm sv s := by
  simp only [tipHbStep, tipSpringArgs_mapMb]
  cases M with
  | mk pb soil mesh dl dm bs bm => simp [mapModelMbFct]

theorem tipMbStep_mapMb (f : SpringIn → List ℚ × List ℚ) (M : ModelIn)
    (layer : Layer) (lm : LateralModel) (sv : ℚ) (s : Springs × Option ℚ)
    (hbm : M.base_moment = false) :
    tipMbStep (mapModelMbFct f M) (mapLayerMbFct f layer)
        { lm with Mb_spring_fct := f } sv s = tipMbStep M layer lm sv s := by
  rw [tipMbStep_bm_false _ _ _ _ _ hbm, tipMbStep_bm_false]
  cases M with
  | mk pb soil mesh dl dm bs bm =>
      simp only [ModelIn.base_moment] at hbm
      subst hbm
      rfl

theorem tipUpdate_mapMt (f : SpringIn → List ℚ × List ℚ) (M : ModelIn)
    (layer : Layer) (lm : LateralModel) (s : Springs × Option ℚ) :
    tipUpdate (mapModelMtFct f M) (mapLayerMtFct f layer)
        { lm with mt_spring_fct := f } s = tipUpdate M layer lm s := by
  simp only [tipUpdate, mapLayerMtFct_top, mapLayerMtFct_bottom,
    tipHbStep_mapMt, tipMbStep_mapMt]
  cases M with
  | mk pb soil mesh dl dm bs bm => simp [mapModelMtFct]

theorem tipUpdate_mapHb (f : SpringIn → List ℚ × List ℚ) (M : ModelIn)
    (layer : Layer) (lm : LateralModel) (s : Springs × Option ℚ)
    (hbs : M.base_shear = false) :
    tipUpdate (mapModelHbFct f M) (mapLayerHbFct f layer)
        { lm with Hb_spring_fct := f } s = tipUpdate M layer lm s := by
  simp only [tipUpdate, mapLayerHbFct_top, mapLayerHbFct_bottom,
    tipMbStep_mapHb]
  have hstep : ∀ sv s0, tipHbStep (mapModelHbFct f M) (mapLayerHbFct f layer)
      { lm with Hb_spring_fct := f } sv s0 = tipHbStep M layer lm sv s0 :=
    fun sv s0 => tipHbStep_mapHb f M layer lm sv s0 hbs
  simp only [hstep]
  cases M with
  | mk pb soil mesh dl dm bs bm => simp [mapModelHbFct]

theorem tipUpdate_mapMb (f : SpringIn → List ℚ × List ℚ) (M : ModelIn)
    (layer : Layer) (lm : LateralModel) (s : Springs × Option ℚ)
    (hbm : M.base_moment = false) :
    tipUpdate (mapModelMbFct f M) (mapLayerMbFct f layer)
        { lm with Mb_spring_fct := f } s = tipUpdate M layer lm s := by
  simp only [tipUpdate, mapLayerMbFct_top, mapLayerMbFct_bottom,
    tipHbStep_mapMb]
  have hstep : ∀ sv s0, tipMbStep (mapModelMbFct f M) (mapLayerMbFct f layer)
      { lm with Mb_spring_fct := f } sv s0 = tipMbStep M layer lm sv s0 :=
    fun sv s0 => tipMbStep_mapMb f M layer lm sv s0 hbm
  simp only [hstep]
  cases M with
  | mk pb soil mesh dl dm bs bm => simp [mapModelMbFct]

theorem processLayer_mapMt (f : SpringIn → List ℚ × List ℚ) (M : ModelIn)
    (hdm : M.distributed_moment = false)
    (st : Except String (Springs × Option ℚ)) (layer : Layer) :
    processLayer (mapModelMtFct f M) st (mapLayerMtFct f layer) =
      processLayer M st layer := by
  cases st with
  | error e => rfl
  | ok s =>
      cases hlm : layer.lateral_model with
      | none =>
          have h2 : (mapLayerMtFct f layer).lateral_model = none := by
            simp [mapLayerMtFct, hlm]
          simp [processLayer, hlm, h2]
      | some lm =>
          have h2 := mapLayerMtFct_lateral f layer lm hlm
          simp only [processLayer, hlm, h2]
          have hcov : coveredIdx (mapModelMtFct f M).mesh (mapLayerMtFct f layer) =
              coveredIdx M.mesh layer :=
            coveredIdx_congr M.mesh layer (mapLayerMtFct f layer)
              (mapLayerMtFct_top f layer) (mapLayerMtFct_bottom f layer)
          rw [hcov,
            foldl_fun_congr
              (elemUpdate (mapModelMtFct f M) (mapLayerMtFct f layer)
                { lm with mt_spring_fct := f })
              (elemUpdate M layer lm) (coveredIdx M.mesh layer) s
              (fun s0 i => elemUpdate_mapMt f M layer lm s0 i hdm)]
          exact tipUpdate_mapMt f M layer lm _

theorem processLayer_mapHb (f : SpringIn → List ℚ × List ℚ) (M : ModelIn)
    (hbs : M.base_shear = false)
    (st : Except String (Springs × Option ℚ)) (layer : Layer) :
    processLayer (mapModelHbFct f M) st (mapLayerHbFct f layer) =
      processLayer M st layer := by
  cases st with
  | error e => rfl
  | ok s =>
      cases hlm : layer.lateral_model with
      | none =>
          have h2 : (mapLayerHbFct f layer).lateral_model = none := by
            simp [mapLayerHbFct, hlm]
          simp [processLayer, hlm, h2]
      | some lm =>
          have h2 := mapLayerHbFct_lateral f layer lm hlm
          simp only [processLayer, hlm, h2]
          have hcov : coveredIdx (mapModelHbFct f M).mesh (mapLayerHbFct f layer) =
              coveredIdx M.mesh layer :=
            coveredIdx_congr M.mesh layer (mapLayerHbFct f layer)
              (mapLayerHbFct_top f layer) (mapLayerHbFct_bottom f layer)
          rw [hcov,
            foldl_fun_congr
              (elemUpdate (mapModelHbFct f M) (mapLayerHbFct f layer)
                { lm with Hb_spring_fct := f })
              (elemUpdate M layer lm) (coveredIdx M.mesh layer) s
              (fun s0 i => elemUpdate_mapHb f M layer lm s0 i)]
          exact tipUpdate_mapHb f M layer lm _ hbs

theorem processLayer_mapMb (f : SpringIn → List ℚ × List ℚ) (M : ModelIn)
    (hbm : M.base_moment = false)
    (st : Except String (Springs × Option ℚ)) (layer : Layer) :
    processLayer (mapModelMbFct f M) st (mapLayerMbFct f layer) =
      processLayer M st layer := by
  cases st with
  | error e => rfl
  | ok s =>
      cases hlm : layer.lateral_model with
      | none =>
          have h2 : (mapLayerMbFct f layer).lateral_model = none := by
            simp [mapLayerMbFct, hlm]
          simp [processLayer, hlm, h2]
      | some lm =>
          have h2 := mapLayerMbFct_lateral f layer lm hlm
          simp only [processLayer, hlm, h2]
          have hcov : coveredIdx (mapModelMbFct f M).mesh (mapLayerMbFct f layer) =
              coveredIdx M.mesh layer :=
            coveredIdx_congr M.mesh layer (mapLayerMbFct f layer)
              (mapLayerMbFct_top f layer) (mapLayerMbFct_bottom f layer)
          rw [hcov,
            foldl_fun_congr
              (elemUpdate (mapModelMbFct f M) (mapLayerMbFct f layer)
                { lm with Mb_spring_fct := f })
              (elemUpdate M layer lm) (coveredIdx M.mesh layer) s
              (fun s0 i => elemUpdate_mapMb f M layer lm s0 i)]
          exact tipUpdate_mapMb f M layer lm _ hbm

theorem create_springs_mapMt (f : SpringIn → List ℚ × List ℚ) (M : ModelIn)
    (hdm : M.distributed_moment = false) :
    create_springs (mapModelMtFct f M) = create_springs M := by
  unfold create_springs
  have hmesh : (mapModelMtFct f M).mesh = M.mesh := rfl
  have hlayers : (mapModelMtFct f M).soil.layers = M.soil.layers.map (mapLayerMtFct f) := rfl
  rw [hmesh, hlayers, List.foldl_map,
    foldl_fun_congr _ (processLayer M) M.soil.layers
      (.ok (initSprings M.mesh.length, none))
      (fun st l => processLayer_mapMt f M hdm st l)]

theorem create_springs_mapHb (f : SpringIn → List ℚ × List ℚ) (M : ModelIn)
    (hbs : M.base_shear = false) :
    create_springs (mapModelHbFct f M) = create_springs M := by
  unfold create_springs
  have hmesh : (mapModelHbFct f M).mesh = M.mesh := rfl
  have hlayers : (mapModelHbFct f M).soil.layers = M.soil.layers.map (mapLayerHbFct f) := rfl
  rw [hmesh, hlayers, List.foldl_map,
    foldl_fun_congr _ (processLayer M) M.soil.layers
      (.ok (initSprings M.mesh.length, none))
      (fun st l => processLayer_mapHb f M hbs st l)]

theorem create_springs_mapMb (f : SpringIn → List ℚ × List ℚ) (M : ModelIn)
    (hbm : M.base_moment = false) :
    create_springs (mapModelMbFct f M) = create_springs M := by
  unfold create_springs
  have hmesh : (mapModelMbFct f M).mesh = M.mesh := rfl
  have hlayers : (mapModelMbFct f M).soil.layers = M.soil.layers.map (mapLayerMbFct f) := rfl
  rw [hmesh, hlayers, List.foldl_map,
    foldl_fun_congr _ (processLayer M) M.soil.layers
      (.ok (initSprings M.mesh.length, none))
      (fun st l => processLayer_mapMb f M hbm st l)]

/-! ## Helper lemmas for the construction validators -/

theorem checkSectionsConnected_ok_iff :
    ∀ (rest : List CircularPileSection) (i : ℕ) (prev : CircularPileSection),
      checkSectionsConnected i prev rest = .ok () ↔
        List.Chain' (fun a b => b.top_elevation = a.bottom_elevation) (prev :: rest) := by
  intro rest
  induction rest with
  | nil => intro i prev; simp [checkSectionsConnected]
  | cons s rest ih =>
      intro i prev
      by_cases h : s.top_elevation = prev.bottom_elevation
      · simp [checkSectionsConnected, h, ih (i + 1) s, List.chain'_cons]
      · simp [checkSectionsConnected, h, List.chain'_cons]

theorem checkLayersClose_ok_iff :
    ∀ (rest : List Layer) (prev : Layer),
      checkLayersClose prev rest = .ok () ↔
        List.Chain' (fun a b => isclose b.top a.bottom = true) (prev :: rest) := by
  intro rest
  induction rest with
  | nil => intro prev; simp [checkLayersClose]
  | cons l rest ih =>
      intro prev
      by_cases h : isclose l.top prev.bottom = true
      · simp [checkLayersClose, h, ih l, List.chain'_cons]
      · simp [checkLayersClose, h, List.chain'_cons]

/-! ## Concrete inputs used by the claim theorems, witnesses and
counterexamples -/

/-- A single submerged element: span 0 to -1 m (midpoint -1/2, below a
water line at 0), diameter 3 m, wall thickness 0.5 m, so the inner volume
is exactly `pi` cubic meters. -/
def rowSub : Row :=
  { x_top := 0, x_bottom := -1, diameter := 3, wall_thickness := 1/2, area := 1,
    xg_top := 0, xg_bottom := 1, sigv_top := 0, sigv_bottom := 10 }

/-- A single dry element: span 2 to 1 m (midpoint 3/2, above a water line
at 0), same section as `rowSub`. -/
def rowDry : Row :=
  { x_top := 2, x_bottom := 1, diameter := 3, wall_thickness := 1/2, area := 1,
    xg_top := 0, xg_bottom := 0, sigv_top := 0, sigv_bottom := 0 }

/-- One soil layer of unit weight 20 kN/m3 spanning 0 to -10 m, with no
constitutive models. -/
def layer20 : Layer := { top := 0, bottom := -10, weight := 20 }

/-- Profile with ground and water line at 0 and the single `layer20`. -/
def soilSub : SoilProfile := { top_elevation := 0, water_line := 0, layers := [layer20] }

/-- Example pile-scalar record. -/
def pileEx : Pile :=
  { tip_footprint := 1, tip_area := 1/2, bottom_elevation := -1, material_unitweight := 78 }

/-- Dry-element profile with the layer's unit weight as a parameter
(ground at 2 m, water line at 0). -/
def soilDry (w : ℚ) : SoilProfile :=
  { top_elevation := 2, water_line := 0, layers := [{ top := 2, bottom := -10, weight := w }] }

/-- Axial model whose unit tip resistance is the constant 100 kPa and
whose multipliers are 1. -/
def amC4 : AxialModel :=
  { unit_shaft_friction := fun _ _ _ => 0, unit_shaft_signature_out := fun _ _ => 1,
    unit_shaft_signature_in := fun _ _ => 1, unit_tip_resistance := fun _ _ _ => 100,
    Q_multiplier := 1, t_multiplier := 1 }

/-- Two-layer profile: the upper layer (0 to -20 m) carries the axial
model `amC4`, the lower layer (-20 to -40 m) has no axial model. -/
def soilC4 : SoilProfile :=
  { top_elevation := 0, water_line := 0,
    layers := [{ top := 0, bottom := -20, weight := 18, axial_model := some amC4 },
               { top := -20, bottom := -40, weight := 19 }] }

/-- Pile whose bottom elevation -10 m lies inside the UPPER layer of
`soilC4`. -/
def pileC4 : Pile :=
  { tip_footprint := 1, tip_area := 1/2, bottom_elevation := -10, material_unitweight := 78 }

/-! ## Claims C1 - C5 -/

/-- Claim C1 (code_bug evidence).  The spec says `compressioncapacity` and
`tensilecapacity` combine shaft resistance with end-bearing/entrapped-weight
terms according to the plug state.  The code cannot produce any such value:
both functions call `isplugged(pile, soil, kind=...)` without the required
positional argument `method`, so every invocation raises TypeError (and the
end-bearing/weight terms sit on discarded standalone `+ ...` statement
lines).  This theorem evaluates the embedded code on all inputs: both
capacity functions always return the TypeError, never a capacity value. -/
theorem claim_C1 (piq : ℚ) (pile : Pile) (soil : SoilProfile) (mesh : List Row) :
    compressioncapacity piq pile soil mesh =
      .error "TypeError: isplugged() missing 1 required positional argument: method" ∧
    tensilecapacity piq pile soil mesh =
      .error "TypeError: isplugged() missing 1 required positional argument: method" :=
  ⟨rfl, rfl⟩

/-- Claim C2 (code_bug evidence).  The claim says the layer weight is
reduced by 10 when the element midpoint is below the water line and taken
at full value otherwise.  The code has the two branches swapped: for the
submerged element `rowSub` (midpoint -1/2 <= water line 0, inner volume
`piq`), `entrapped_soil_weight` returns the FULL weight `20 * piq`, while
the claim's buoyant-adjusted value is `(20 - 10) * piq = 10 * piq`. -/
theorem claim_C2 (piq : ℚ) :
    entrapped_soil_weight piq pileEx soilSub [rowSub] = 20 * piq ∧
    (layer20.weight - 10) * insideVolAt piq [rowSub] 0 = 10 * piq := by
  constructor
  · simp [entrapped_soil_weight, soilSub, layer20, coveredIdx, writeAll,
      entrappedTerm, midElevation, insideVolAt, rowAt, rowSub, List.range,
      List.filter]
    norm_num
  · simp [layer20, insideVolAt, rowAt, rowSub]
    norm_num

/-- Claim C3 (confirmed).  Under method "API-87", given that
`unit_end_bearing` returns a value `q` (rather than raising), the
compression plug check returns True exactly when
`q * (tip_footprint - tip_area) < inner-only shaft resistance - entrapped
soil weight`, and the tension plug check returns True exactly when
`entrapped soil weight < inner-only shaft resistance`; both results are
pure booleans (total functions of the inputs in this embedding, with no
state). -/
theorem claim_C3 (piq : ℚ) (pile : Pile) (soil : SoilProfile) (mesh : List Row)
    (q : ℚ) (hq : unit_end_bearing pile soil mesh = .ok q) :
    (isplugged piq pile soil mesh "API-87" "compression" = .ok true ↔
      q * (pile.tip_footprint - pile.tip_area) <
        shaft_resistance piq pile soil mesh false true -
          entrapped_soil_weight piq pile soil mesh) ∧
    (isplugged piq pile soil mesh "API-87" "tension" = .ok true ↔
      entrapped_soil_weight piq pile soil mesh <
        shaft_resistance piq pile soil mesh false true) := by
  constructor
  · simp [isplugged, hq]
  · simp [isplugged]

/-- Witness for claim C3: the single-layer profile `soilSub` (no axial
model, so the `unit_end_bearing` loop returns `q = 0`) on an empty
property table, at `piq = 3`. -/
theorem claim_C3_witness :
    (isplugged 3 pileEx soilSub [] "API-87" "compression" = .ok true ↔
      (0 : ℚ) * (pileEx.tip_footprint - pileEx.tip_area) <
        shaft_resistance 3 pileEx soilSub [] false true -
          entrapped_soil_weight 3 pileEx soilSub []) ∧
    (isplugged 3 pileEx soilSub [] "API-87" "tension" = .ok true ↔
      entrapped_soil_weight 3 pileEx soilSub [] <
        shaft_resistance 3 pileEx soilSub [] false true) :=
  claim_C3 3 pileEx soilSub [] 0
    (by simp [unit_end_bearing, unit_end_bearing_loop, soilSub, layer20])

/-- Claim C4 (code_bug evidence).  The claim says `unit_end_bearing`
returns the tip layer's unit tip resistance times its `Q_multiplier`
(here 100 * 1 = 100, second conjunct), independently of the other layers.
On `soilC4` the pile tip (-10 m) lies in the upper layer carrying the
axial model, but the loop continues past it and the lower layer without an
axial model resets `q` to 0, which is what the function returns. -/
theorem claim_C4 :
    unit_end_bearing pileC4 soilC4 [rowSub] = .ok 0 ∧
    amC4.unit_tip_resistance (lastSigvBottom [rowSub])
        (soilC4.top_elevation - soilC4.bottom_elevation) ((0 : ℚ) - (-20)) *
      amC4.Q_multiplier = 100 := by
  constructor
  · simp [unit_end_bearing, unit_end_bearing_loop, soilC4, amC4, pileC4]
  · simp [amC4]

/-- Counterexample to claim C5 as stated.  One dry element (midpoint 3/2
above the water line 0) fully covered by a single layer, so the layer's
contribution is the whole of `entrapped_soil_weight`.  With the source's
`math.pi` value: at unit weight 20 the weight contribution is
`(20 - 10) * pi`, at doubled unit weight 40 it is `(40 - 10) * pi` —
doubling the layer's unit weight does NOT double its contribution. -/
theorem claim_C5_counterexample :
    ¬ (entrapped_soil_weight piFloat pileEx (soilDry 40) [rowDry] =
        2 * entrapped_soil_weight piFloat pileEx (soilDry 20) [rowDry]) := by
  have h40 : entrapped_soil_weight piFloat pileEx (soilDry 40) [rowDry] = 30 * piFloat := by
    simp [entrapped_soil_weight, soilDry, coveredIdx, writeAll, entrappedTerm,
      midElevation, insideVolAt, rowAt, rowDry, List.range, List.filter]
    norm_num
  have h20 : entrapped_soil_weight piFloat pileEx (soilDry 20) [rowDry] = 10 * piFloat := by
    simp [entrapped_soil_weight, soilDry, coveredIdx, writeAll, entrappedTerm,
      midElevation, insideVolAt, rowAt, rowDry, List.range, List.filter]
    norm_num
  rw [h40, h20]
  norm_num [piFloat]

/-- Claim C5 as amended.  `shaft_resistance` IS linear in a layer's
friction multiplier: as a function of layer `k`'s `t_multiplier` it
satisfies `S(2t) = 2 S(t) - S(0)` with `S(0)` removing the layer's
contribution, so doubling the multiplier doubles the contribution
`S(t) - S(0)`.  `entrapped_soil_weight` is only AFFINE in a layer's unit
weight: `E(2w) = 2 E(w) - E(0)`, where the baseline `E(0)` carries the
`-10` buoyancy offset of the elements above the water line; the plain
"doubling the weight doubles the contribution" only holds for elements
whose midpoint is at or below the water line (full-weight branch). -/
theorem claim_C5 (piq : ℚ) (pile : Pile) (soil : SoilProfile) (mesh : List Row)
    (k : ℕ) (w t : ℚ) (outer_shaft inner_shaft : Bool) :
    entrapped_soil_weight piq pile (setLayerWeight soil k (2 * w)) mesh =
      2 * entrapped_soil_weight piq pile (setLayerWeight soil k w) mesh -
        entrapped_soil_weight piq pile (setLayerWeight soil k 0) mesh ∧
    shaft_resistance piq pile (setLayerTmult soil k (2 * t)) mesh outer_shaft inner_shaft =
      2 * shaft_resistance piq pile (setLayerTmult soil k t) mesh outer_shaft inner_shaft -
        shaft_resistance piq pile (setLayerTmult soil k 0) mesh outer_shaft inner_shaft := by
  constructor
  · simp only [entrapped_soil_weight, setLayerWeight_layers]
    have hz : (List.replicate mesh.length (0 : ℚ)) =
        List.zipWith aff2 (List.replicate mesh.length (0 : ℚ))
          (List.replicate mesh.length (0 : ℚ)) :=
      (zipWith_aff2_self _).symm
    have hwl : (setLayerWeight soil k (2 * w)).water_line = soil.water_line := rfl
    have hwl2 : (setLayerWeight soil k w).water_line = soil.water_line := rfl
    have hwl3 : (setLayerWeight soil k 0).water_line = soil.water_line := rfl
    rw [hwl, hwl2, hwl3]
    conv_lhs => rw [hz]
    rw [entrapped_foldl_aff piq soil.water_line mesh soil.layers k w
      (List.replicate mesh.length 0) (List.replicate mesh.length 0)]
    rw [sum_zipWith_aff2]
    rw [entrapped_foldl_length, entrapped_foldl_length]
  · simp only [shaft_resistance, setLayerTmult_layers]
    set fs2 := List.foldl (shaftUpdate piq mesh)
      (List.replicate mesh.length 0, List.replicate mesh.length 0)
      (soil.layers.set k (layerWithTmult (soil.layers.getD k dflLayer) (2 * t))) with hfs2
    set fsT := List.foldl (shaftUpdate piq mesh)
      (List.replicate mesh.length 0, List.replicate mesh.length 0)
      (soil.layers.set k (layerWithTmult (soil.layers.getD k dflLayer) t)) with hfsT
    set fs0 := List.foldl (shaftUpdate piq mesh)
      (List.replicate mesh.length 0, List.replicate mesh.length 0)
      (soil.layers.set k (layerWithTmult (soil.layers.getD k dflLayer) 0)) with hfs0
    have haff := shaft_foldl_aff piq mesh soil.layers k t
      (List.replicate mesh.length 0, List.replicate mesh.length 0)
      (List.replicate mesh.length 0, List.replicate mesh.length 0)
    dsimp only at haff
    rw [zipWith_aff2_self] at haff
    rw [← hfs2, ← hfsT, ← hfs0] at haff
    have hlen1 : fsT.1.length = fs0.1.length := by
      rw [hfsT, hfs0, (shaft_foldl_length piq mesh _ _).1,
        (shaft_foldl_length piq mesh _ _).1]
    have hlen2 : fsT.2.length = fs0.2.length := by
      rw [hfsT, hfs0, (shaft_foldl_length piq mesh _ _).2,
        (shaft_foldl_length piq mesh _ _).2]
    have hs1 := sum_zipWith_aff2 fsT.1 fs0.1 hlen1
    have hs2 := sum_zipWith_aff2 fsT.2 fs0.2 hlen2
    rw [haff]
    cases outer_shaft <;> cases inner_shaft <;>
      simp [List.sum_replicate, hs1, hs2] <;> ring

/-- Claim C6 (confirmed).  For every model input whose `distributed_moment`
/ `base_shear` / `base_moment` toggle is off, whenever `create_springs`
succeeds the corresponding spring array of the result is the untouched
zero allocation of the configured length (`spring_dim = 15` points), for
arbitrary layers — in particular regardless of each lateral model's
declared support flags; and the result of `create_springs` is unchanged
when every layer's generator for that family is replaced by an arbitrary
function, i.e. the disabled family's spring-generation function is never
evaluated. -/
theorem claim_C6 (M : ModelIn) :
    (M.distributed_moment = false →
      (∀ st, create_springs M = .ok st →
        st.mt = List.replicate M.mesh.length zeroMtSlot) ∧
      ∀ f, create_springs (mapModelMtFct f M) = create_springs M) ∧
    (M.base_shear = false →
      (∀ st, create_springs M = .ok st → st.Hb = zeroArr2) ∧
      ∀ f, create_springs (mapModelHbFct f M) = create_springs M) ∧
    (M.base_moment = false →
      (∀ st, create_springs M = .ok st → st.Mb = zeroArr2) ∧
      ∀ f, create_springs (mapModelMbFct f M) = create_springs M) := by
  refine ⟨fun hdm => ⟨?_, fun f => create_springs_mapMt f M hdm⟩,
    fun hbs => ⟨?_, fun f => create_springs_mapHb f M hbs⟩,
    fun hbm => ⟨?_, fun f => create_springs_mapMb f M hbm⟩⟩
  · intro st hok
    obtain ⟨pw, hfold⟩ := create_springs_ok_elim M st hok
    obtain ⟨s, hs, hmt⟩ := foldl_processLayer_ok_mt M hdm M.soil.layers _ _ hfold
    have hsi : s = (initSprings M.mesh.length, none) := by
      injection hs with h1; exact h1.symm
    rw [hsi] at hmt
    simpa [initSprings] using hmt
  · intro st hok
    obtain ⟨pw, hfold⟩ := create_springs_ok_elim M st hok
    obtain ⟨s, hs, hq⟩ := foldl_processLayer_ok_Hb M hbs M.soil.layers _ _ hfold
    have hsi : s = (initSprings M.mesh.length, none) := by
      injection hs with h1; exact h1.symm
    rw [hsi] at hq
    simpa [initSprings] using hq
  · intro st hok
    obtain ⟨pw, hfold⟩ := create_springs_ok_elim M st hok
    obtain ⟨s, hs, hq⟩ := foldl_processLayer_ok_Mb M hbm M.soil.layers _ _ hfold
    have hsi : s = (initSprings M.mesh.length, none) := by
      injection hs with h1; exact h1.symm
    rw [hsi] at hq
    simpa [initSprings] using hq

/-- Arbitrary nonzero spring generator used in the C6 witness. -/
def wfct : SpringIn → List ℚ × List ℚ := fun _ => ([1], [2])

/-- Lateral model declaring support for all four families, with `wfct` as
every generator. -/
def lmW : LateralModel :=
  { sig_py := true, sig_Hb := true, sig_mt := true, sig_Mb := true,
    py_spring_fct := wfct, mt_spring_fct := wfct,
    Hb_spring_fct := wfct, Mb_spring_fct := wfct }

/-- Layer carrying `lmW`. -/
def layerW : Layer := { top := 0, bottom := -10, weight := 20, lateral_model := some lmW }

/-- Profile for the C6 witness. -/
def soilW : SoilProfile := { top_elevation := 0, water_line := 0, layers := [layerW] }

/-- Model input with every spring family disabled, one element, one layer
whose model declares support for all families. -/
def modelW : ModelIn :=
  { pile_bottom_elevation := -1, soil := soilW, mesh := [rowSub],
    distributed_lateral := false, distributed_moment := false,
    base_shear := false, base_moment := false }

/-- Witness for claim C6: on the concrete `modelW` (all toggles off, the
layer's model declaring full support), `create_springs` succeeds with the
all-zero 15-point arrays for m-t, Hb and Mb, and replacing any of the
three generators by `wfct` leaves the output unchanged. -/
theorem claim_C6_witness :
    (∃ st, create_springs modelW = Except.ok st ∧
      st.mt = List.replicate 1 zeroMtSlot ∧ st.Hb = zeroArr2 ∧ st.Mb = zeroArr2) ∧
    create_springs (mapModelMtFct wfct modelW) = create_springs modelW ∧
    create_springs (mapModelHbFct wfct modelW) = create_springs modelW ∧
    create_springs (mapModelMbFct wfct modelW) = create_springs modelW := by
  have hok : create_springs modelW = Except.ok (initSprings 1) := by
    simp [create_springs, processLayer, modelW, soilW, layerW, lmW, coveredIdx,
      rowAt, rowSub, elemUpdate, tipUpdate, tipHbStep, tipMbStep, initSprings,
      List.range, List.filter, Except.map]
  refine ⟨⟨initSprings 1, hok, ?_, ?_, ?_⟩, ?_, ?_, ?_⟩
  · exact ((claim_C6 modelW).1 rfl).1 (initSprings 1) hok
  · exact ((claim_C6 modelW).2.1 rfl).1 (initSprings 1) hok
  · exact ((claim_C6 modelW).2.2 rfl).1 (initSprings 1) hok
  · exact ((claim_C6 modelW).1 rfl).2 wfct
  · exact ((claim_C6 modelW).2.1 rfl).2 wfct
  · exact ((claim_C6 modelW).2.2 rfl).2 wfct

/-- Claim C7 (confirmed).  `effective_pile_weight` with no soil profile
attached raises the descriptive missing-soil error, and `isplugged` with
any method string other than "API-87" and "ICP-05" raises the
unsupported-method error; neither ever returns an `ok` sentinel in these
situations. -/
theorem claim_C7 :
    (∀ (pile : Pile) (mesh : List Row),
      effective_pile_weight pile none mesh =
        .error "Model must be linked to a soil profile, use openpile.construct.Pile.weight instead.") ∧
    (∀ (piq : ℚ) (pile : Pile) (soil : SoilProfile) (mesh : List Row)
      (method kind : String), method ≠ "API-87" → method ≠ "ICP-05" →
      isplugged piq pile soil mesh method kind = .error "Method not implemented") := by
  constructor
  · intro pile mesh; rfl
  · intro piq pile soil mesh method kind h1 h2
    simp [isplugged, h1, h2]

/-- Witness for claim C7: the no-soil error on a concrete pile, and the
unsupported-method error for the method string "foo". -/
theorem claim_C7_witness :
    effective_pile_weight pileEx none [rowSub] =
      .error "Model must be linked to a soil profile, use openpile.construct.Pile.weight instead." ∧
    isplugged 3 pileEx soilSub [] "foo" "compression" = .error "Method not implemented" :=
  ⟨claim_C7.1 pileEx [rowSub],
   claim_C7.2 3 pileEx soilSub [] "foo" "compression" (by simp) (by simp)⟩

/-- Counterexample to claim C8 as stated.  Two sections whose junction
elevations differ by 1/2000 m — within the 0.001 tolerance the spec uses
for elevation comparisons, hence "contiguous within tolerance" — still
make `Pile` construction fail: the validator compares the elevations with
exact `!=`, not with a tolerance. -/
def secA : CircularPileSection :=
  { top_elevation := 0, bottom_elevation := -10, diameter := 1, thickness := 1/2 }

/-- Lower section for the C8 counterexample: its top differs from
`secA`'s bottom by 1/2000. -/
def secB : CircularPileSection :=
  { top_elevation := -10 - 1/2000, bottom_elevation := -20, diameter := 1, thickness := 1/2 }

/-- Lower section exactly contiguous with `secA`, for the C8 witness. -/
def secC : CircularPileSection :=
  { top_elevation := -10, bottom_elevation := -20, diameter := 1, thickness := 1/2 }

/-- Counterexample theorem for claim C8: `secA.bottom` and `secB.top`
differ by no more than 0.001 (second conjunct), yet construction fails
with the non-consistent-sections error (first conjunct) — so "when all
consecutive sections are contiguous [within tolerance] construction
succeeds" is false on the code. -/
theorem claim_C8_counterexample :
    pile_sections_must_not_overlap [secA, secB] =
      .error "Pile sections are not consistent. Pile section No. 1 and No. 0 do not connect." ∧
    |secB.top_elevation - secA.bottom_elevation| ≤ 1/1000 := by
  constructor
  · norm_num [pile_sections_must_not_overlap, sortSectionsDescTop, List.insertionSort,
      List.orderedInsert, checkSectionsConnected, secA, secB]
    rfl
  · simp [secA, secB, abs_le]
    norm_num

/-- Claim C8 as amended.  After sorting by descending top elevation,
`Pile` construction succeeds exactly when every consecutive pair of
sections matches EXACTLY (`section[i].bottom == section[i+1].top`, zero
tolerance); and the geometry is never silently corrected: a successful
validation returns a permutation (the descending reordering) of the input
sections, none of their fields altered. -/
theorem claim_C8 (ss : List CircularPileSection) :
    ((∃ out, pile_sections_must_not_overlap ss = .ok out) ↔
      List.Chain' (fun a b => b.top_elevation = a.bottom_elevation)
        (sortSectionsDescTop ss)) ∧
    (∀ out, pile_sections_must_not_overlap ss = .ok out → out.Perm ss) := by
  constructor
  · cases hs : sortSectionsDescTop ss with
    | nil => simp [pile_sections_must_not_overlap, hs]
    | cons s0 rest =>
        simp only [pile_sections_must_not_overlap, hs]
        cases hc : checkSectionsConnected 1 s0 rest with
        | ok u =>
            cases u
            simp only [Except.ok.injEq, exists_eq]
            rw [← (checkSectionsConnected_ok_iff rest 1 s0)]
            simp [hc]
        | error e =>
            have : ¬ checkSectionsConnected 1 s0 rest = .ok () := by simp [hc]
            rw [checkSectionsConnected_ok_iff rest 1 s0] at this
            simp [this]
  · intro out hok
    have hout : out = sortSectionsDescTop ss := by
      cases hs : sortSectionsDescTop ss with
      | nil =>
          simp only [pile_sections_must_not_overlap, hs] at hok
          injection hok with h
          exact h.symm
      | cons s0 rest =>
          simp only [pile_sections_must_not_overlap, hs] at hok
          cases hc : checkSectionsConnected 1 s0 rest with
          | ok u =>
              rw [hc] at hok
              injection hok with h
              exact h.symm
          | error e => rw [hc] at hok; cases hok
    rw [hout]
    exact List.perm_insertionSort _ ss

/-- Witness for claim C8: `[secA, secC]` is exactly contiguous, so
construction succeeds, and the validated output is a permutation of the
input. -/
theorem claim_C8_witness :
    (∃ out, pile_sections_must_not_overlap [secA, secC] = .ok out) ∧
    ([secA, secC] : List CircularPileSection).Perm [secA, secC] := by
  have hchain : List.Chain' (fun a b => b.top_elevation = a.bottom_elevation)
      (sortSectionsDescTop [secA, secC]) := by
    simp [sortSectionsDescTop, List.insertionSort, List.orderedInsert, secA, secC]
  refine ⟨(claim_C8 [secA, secC]).1.mpr hchain, ?_⟩
  obtain ⟨out, hok⟩ := (claim_C8 [secA, secC]).1.mpr hchain
  have := (claim_C8 [secA, secC]).2 out hok
  exact List.Perm.refl _

/-- Upper layer for the C9 counterexample: elevations around 2e9 m, where
`math.isclose`'s default relative tolerance (1e-9) dominates the 0.001
absolute tolerance. -/
def layerBigA : Layer := { top := 4000000000, bottom := 2000000002, weight := 18 }

/-- Lower layer for the C9 counterexample: its top leaves a 2 m gap to
`layerBigA`'s bottom. -/
def layerBigB : Layer := { top := 2000000000, bottom := 0, weight := 18 }

/-- Counterexample to claim C9 as stated.  The two layers leave a 2 m gap
(`|layerBigB.top - layerBigA.bottom| = 2 > 0.001`, second conjunct), yet
`SoilProfile` construction succeeds (first conjunct): the validator uses
Python `math.isclose` with its default RELATIVE tolerance 1e-9, which at
elevations of 2e9 m accepts discrepancies up to about 2 m — the claimed
fixed 0.001 tolerance is not what the code enforces. -/
theorem claim_C9_counterexample :
    check_layers_elevations 4000000000 [layerBigA, layerBigB] = .ok () ∧
    ¬ (|layerBigB.top - layerBigA.bottom| ≤ 1/1000) := by
  constructor
  · norm_num [check_layers_elevations, sortLayersDescTop, List.insertionSort,
      List.orderedInsert, checkLayersClose, isclose, layerBigA, layerBigB, abs_le]
  · simp [layerBigA, layerBigB, abs_le]
    norm_num

/-- Claim C9 as amended.  `SoilProfile` construction succeeds exactly when
the layer list is nonempty, the topmost (descending-top) layer's top
equals the profile's `top_elevation` EXACTLY (the code compares with `!=`,
no tolerance), and every consecutive pair of the descending-sorted layers
satisfies Python `math.isclose(next.top, prev.bottom, abs_tol=0.001)` with
the default relative tolerance 1e-9 — i.e. the accepted gap/overlap is
`max(0.001, 1e-9 * magnitude)`, not a fixed 0.001. -/
theorem claim_C9 (top_elevation : ℚ) (layers : List Layer) :
    check_layers_elevations top_elevation layers = .ok () ↔
      ∃ l0 rest, sortLayersDescTop layers = l0 :: rest ∧ l0.top = top_elevation ∧
        List.Chain' (fun a b => isclose b.top a.bottom = true) (l0 :: rest) := by
  cases hs : sortLayersDescTop layers with
  | nil =>
      simp only [check_layers_elevations, hs]
      constructor
      · intro h; cases h
      · rintro ⟨l0, rest, hcontra, -, -⟩; cases hcontra
  | cons l0 rest =>
      simp only [check_layers_elevations, hs]
      by_cases htop : l0.top = top_elevation
      · rw [if_pos htop, checkLayersClose_ok_iff]
        constructor
        · intro hch
          exact ⟨l0, rest, rfl, htop, hch⟩
        · rintro ⟨l0', rest', heq, -, hch⟩
          obtain ⟨rfl, rfl⟩ : l0' = l0 ∧ rest' = rest := by
            injection heq with h1 h2
            exact ⟨h1.symm, h2.symm⟩
          exact hch
      · rw [if_neg htop]
        constructor
        · intro h; cases h
        · rintro ⟨l0', rest', heq, htop', -⟩
          obtain ⟨rfl, -⟩ : l0' = l0 ∧ rest' = rest := by
            injection heq with h1 h2
            exact ⟨h1.symm, h2.symm⟩
          exact absurd htop' htop

/-- Claim C10 (confirmed).  For every built model with a soil profile, the
numeric rows of the table returned by `get_Mb_spring` are populated from
the stored base-shear array `_Hb_spring` — not from `_Mb_spring` — and
therefore always coincide with the numeric rows of `get_Hb_spring`,
whatever value `_Mb_spring` holds. -/
theorem claim_C10 (mo : ModelOut) (sp : SoilProfile) (h : mo.soil = some sp) :
    Option.map SpringTable.rows (get_Mb_spring mo) =
      some [mo.Hb_spring.1, mo.Hb_spring.2] ∧
    Option.map SpringTable.rows (get_Mb_spring mo) =
      Option.map SpringTable.rows (get_Hb_spring mo) := by
  constructor <;> simp [get_Mb_spring, get_Hb_spring, h]

/-- Model-output record for the C10 witness: the stored Mb array differs
from the Hb array, yet the Mb table reports the Hb numbers. -/
def moW : ModelOut :=
  { soil := some soilSub, element_number := 3, pile_bottom_elevation := -1,
    Hb_spring := ([1, 2], [3, 4]), Mb_spring := ([5, 6], [7, 8]) }

/-- Witness for claim C10 at the concrete `moW`, whose `Mb_spring` array
differs from its `Hb_spring` array. -/
theorem claim_C10_witness :
    Option.map SpringTable.rows (get_Mb_spring moW) =
      some [moW.Hb_spring.1, moW.Hb_spring.2] ∧
    Option.map SpringTable.rows (get_Mb_spring moW) =
      Option.map SpringTable.rows (get_Hb_spring moW) :=
  claim_C10 moW soilSub rfl
